import Mathlib

/-!
Verification of the context-use archive ingestion pipeline.

This file is a shallow embedding, in Lean 4, of the core of the
context-use repository (TypeScript): the payload model with its canonical
serialization and hashing (src/payload/models.ts), the provider
extraction/transform strategies (src/providers), task discovery and the
upload strategy (src/core/etl.ts), the SQLite transaction semantics
(src/db/sqlite.ts together with src/db/schema.sql), and the archive
orchestrator loop (ContextUse.processArchive).

JavaScript dynamic values are embedded as an inductive `Json` type, with
objects as association lists in insertion order.  Dates are embedded as
rational milliseconds since the Unix epoch.  Fallible operations return
`Except String`.
-/

set_option maxHeartbeats 1000000
set_option maxRecDepth 100000

namespace ContextUse

/-- JSON / JavaScript values.  Objects are association lists of
(key, value) pairs in insertion order; an `undefined` property is modelled
by the key being absent, while `null` is explicit. -/
inductive Json where
  | null : Json
  | bool (b : Bool) : Json
  | num (q : Rat) : Json
  | str (s : String) : Json
  | arr (elems : List Json) : Json
  | obj (fields : List (String × Json)) : Json
deriving Repr

mutual
/-- Structural equality test on Json values. -/
def Json.beq : Json → Json → Bool
  | .null, .null => true
  | .bool a, .bool b => a == b
  | .num a, .num b => a == b
  | .str a, .str b => a == b
  | .arr xs, .arr ys => beqElems xs ys
  | .obj xs, .obj ys => beqFields xs ys
  | _, _ => false

def beqElems : List Json → List Json → Bool
  | [], [] => true
  | x :: xs, y :: ys => Json.beq x y && beqElems xs ys
  | _, _ => false

def beqFields : List (String × Json) → List (String × Json) → Bool
  | [], [] => true
  | (k, v) :: xs, (l, w) :: ys => k == l && Json.beq v w && beqFields xs ys
  | _, _ => false
end

mutual
theorem Json.beq_iff : ∀ a b : Json, Json.beq a b = true ↔ a = b
  | .null, b => by cases b <;> simp [Json.beq]
  | .bool x, b => by cases b <;> simp [Json.beq]
  | .num x, b => by cases b <;> simp [Json.beq]
  | .str x, b => by cases b <;> simp [Json.beq]
  | .arr xs, b => by
    cases b <;> simp [Json.beq]
    exact beqElems_iff xs _
  | .obj xs, b => by
    cases b <;> simp [Json.beq]
    exact beqFields_iff xs _

theorem beqElems_iff : ∀ xs ys : List Json, beqElems xs ys = true ↔ xs = ys
  | [], ys => by cases ys <;> simp [beqElems]
  | x :: xs, ys => by
    cases ys with
    | nil => simp [beqElems]
    | cons y ys =>
      simp [beqElems, Json.beq_iff x y, beqElems_iff xs ys]

theorem beqFields_iff :
    ∀ xs ys : List (String × Json), beqFields xs ys = true ↔ xs = ys
  | [], ys => by cases ys <;> simp [beqFields]
  | (k, v) :: xs, ys => by
    cases ys with
    | nil => simp [beqFields]
    | cons y ys =>
      obtain ⟨l, w⟩ := y
      simp [beqFields, Json.beq_iff v w, beqFields_iff xs ys,
        Prod.ext_iff, and_assoc]
end

instance : DecidableEq Json := fun a b =>
  decidable_of_iff (Json.beq a b = true) (Json.beq_iff a b)

/-- The `v !== undefined && v !== null` test of sortedClean; with absent
keys standing for undefined, only explicit null remains to be filtered. -/
def Json.isNull : Json → Bool
  | .null => true
  | _ => false

/-- Lexicographic less-or-equal on character lists — the default
JavaScript Array.sort comparison on the (ASCII) payload keys. -/
def charsLe : List Char → List Char → Bool
  | [], _ => true
  | _ :: _, [] => false
  | c :: cs, d :: ds => if c = d then charsLe cs ds else decide (c < d)

/-- Lexicographic less-or-equal on strings. -/
def keyLe (a b : String) : Bool := charsLe a.data b.data

/-- The sorting relation on association-list entries: compare keys. -/
def keyRel (a b : String × Json) : Prop := keyLe a.1 b.1 = true

instance : DecidableRel keyRel := fun a b =>
  instDecidableEqBool (keyLe a.1 b.1) true

/-- `Object.keys(obj).sort()` applied to an association list: sort the
pairs by key (string order), keeping the relative order of equal keys (a
stable sort; object literals have distinct keys, so any comparison sort
yields this same list). -/
def sortKey (kvs : List (String × Json)) : List (String × Json) :=
  kvs.insertionSort keyRel

mutual
/-- sortedClean (src/payload/models.ts): recursively remove
undefined/null keys and sort object keys for deterministic hashing.
The source iterates the sorted key list and skips null values while
copying; merge sort is stable and filtering preserves relative order, so
filtering the pairs first and sorting the survivors yields the same
association list. -/
def sortedClean : Json → Json
  | .null => .null
  | .bool b => .bool b
  | .num q => .num q
  | .str s => .str s
  | .arr elems => .arr (cleanList elems)
  | .obj fields => .obj (sortKey (cleanFields fields))

/-- `obj.map(sortedClean)` over an array. -/
def cleanList : List Json → List Json
  | [] => []
  | v :: rest => sortedClean v :: cleanList rest

/-- Drop pairs whose value is null (or undefined, i.e. absent) and clean
the remaining values recursively. -/
def cleanFields : List (String × Json) → List (String × Json)
  | [] => []
  | (k, v) :: rest =>
    if v.isNull then cleanFields rest
    else (k, sortedClean v) :: cleanFields rest
end

-- ---------------------------------------------------------------------
-- JSON.stringify (canonical string form fed to the hash)
-- ---------------------------------------------------------------------

/-- Lower-case hexadecimal digit. -/
def hexDigit (n : Nat) : Char :=
  if n < 10 then Char.ofNat (48 + n) else Char.ofNat (87 + n)

/-- Two-digit lower-case hexadecimal rendering (for \u00XX escapes). -/
def hex2 (n : Nat) : String :=
  String.mk [hexDigit (n / 16 % 16), hexDigit (n % 16)]

/-- JSON.stringify escaping of a single character. -/
def escapeChar (c : Char) : String :=
  if c = '"' then "\\\""
  else if c = '\\' then "\\\\"
  else if c = '\n' then "\\n"
  else if c = '\r' then "\\r"
  else if c = '\t' then "\\t"
  else if c = '\x08' then "\\b"
  else if c = '\x0c' then "\\f"
  else if c.toNat < 32 then "\\u00" ++ hex2 c.toNat
  else String.singleton c

/-- JSON.stringify of a string value, double quotes included. -/
def quoteStr (s : String) : String :=
  "\"" ++ String.join (s.data.map escapeChar) ++ "\""

/-- JSON.stringify of a number.  The provider payloads that are hashed by
uniqueKeySuffix contain only string-valued fields, so only the integral
case is ever exercised; non-integral rationals are rendered num/den. -/
def serializeNum (q : Rat) : String :=
  if q.den = 1 then toString q.num else toString q

/-- Comma-separated concatenation. -/
def joinComma : List String → String
  | [] => ""
  | [s] => s
  | s :: rest => s ++ "," ++ joinComma rest

mutual
/-- JSON.stringify for the values produced by sortedClean. -/
def serializeJson : Json → String
  | .null => "null"
  | .bool b => if b then "true" else "false"
  | .num q => serializeNum q
  | .str s => quoteStr s
  | .arr elems => "[" ++ joinComma (serializeElems elems) ++ "]"
  | .obj fields => "\x7b" ++ joinComma (serializeFields fields) ++ "\x7d"

def serializeElems : List Json → List String
  | [] => []
  | v :: rest => serializeJson v :: serializeElems rest

def serializeFields : List (String × Json) → List String
  | [] => []
  | (k, v) :: rest => (quoteStr k ++ ":" ++ serializeJson v) :: serializeFields rest
end

-- ---------------------------------------------------------------------
-- SHA-256 (node:crypto createHash("sha256"), over the UTF-8 bytes)
-- ---------------------------------------------------------------------

/-- UTF-8 encoding of one character, as byte values. -/
def utf8Bytes (c : Char) : List Nat :=
  let n := c.toNat
  if n < 128 then [n]
  else if n < 2048 then [192 ||| (n >>> 6), 128 ||| (n &&& 63)]
  else if n < 65536 then
    [224 ||| (n >>> 12), 128 ||| ((n >>> 6) &&& 63), 128 ||| (n &&& 63)]
  else
    [240 ||| (n >>> 18), 128 ||| ((n >>> 12) &&& 63),
     128 ||| ((n >>> 6) &&& 63), 128 ||| (n &&& 63)]

/-- UTF-8 bytes of a string. -/
def strBytes (s : String) : List Nat := s.data.flatMap utf8Bytes

/-- 2^32, the word modulus of SHA-256. -/
def w32 : Nat := 4294967296

/-- 32-bit right rotation. -/
def rotr (x n : Nat) : Nat := ((x >>> n) ||| (x <<< (32 - n))) % w32

/-- Big-endian byte rendering of a value in `n` bytes. -/
def bytesBE : Nat → Nat → List Nat
  | 0, _ => []
  | n + 1, v => (v >>> (8 * n)) % 256 :: bytesBE n v

/-- SHA-256 message padding: append 0x80, zeros to 56 mod 64, and the
64-bit big-endian bit length. -/
def sha256pad (msg : List Nat) : List Nat :=
  let L := msg.length
  let zeros := (119 - (L % 64)) % 64
  msg ++ [128] ++ List.replicate zeros 0 ++ bytesBE 8 (L * 8)

/-- Split a byte list into 32-bit big-endian words. -/
def toWordsBE : List Nat → List Nat
  | b0 :: b1 :: b2 :: b3 :: rest =>
    (((b0 * 256 + b1) * 256 + b2) * 256 + b3) :: toWordsBE rest
  | _ => []

/-- Split a list into chunks of `n` elements (the final chunk may be
shorter; for padded SHA-256 input every chunk has exactly 64 bytes).
Structural recursion on a fuel argument — each step consumes at least
one element, so `l.length` steps always suffice. -/
def chunksOfF (n : Nat) : Nat → List α → List (List α)
  | 0, _ => []
  | _, [] => []
  | fuel + 1, x :: xs =>
    if n = 0 then []
    else (x :: xs).take n :: chunksOfF n fuel ((x :: xs).drop n)

def chunksOf (n : Nat) (l : List α) : List (List α) := chunksOfF n l.length l

/-- The SHA-256 round constants. -/
def sha256k : List Nat :=
  [1116352408, 1899447441, 3049323471, 3921009573,
   961987163, 1508970993, 2453635748, 2870763221,
   3624381080, 310598401, 607225278, 1426881987,
   1925078388, 2162078206, 2614888103, 3248222580,
   3835390401, 4022224774, 264347078, 604807628,
   770255983, 1249150122, 1555081692, 1996064986,
   2554220882, 2821834349, 2952996808, 3210313671,
   3336571891, 3584528711, 113926993, 338241895,
   666307205, 773529912, 1294757372, 1396182291,
   1695183700, 1986661051, 2177026350, 2456956037,
   2730485921, 2820302411, 3259730800, 3345764771,
   3516065817, 3600352804, 4094571909, 275423344,
   430227734, 506948616, 659060556, 883997877,
   958139571, 1322822218, 1537002063, 1747873779,
   1955562222, 2024104815, 2227730452, 2361852424,
   2428436474, 2756734187, 3204031479, 3329325298]

/-- The SHA-256 initial hash value. -/
def sha256h0 : List Nat :=
  [1779033703, 3144134277, 1013904242, 2773480762,
   1359893119, 2600822924, 528734635, 1541459225]

/-- Extend the 16 chunk words to the 64-word message schedule. -/
def extendSchedule (ws : List Nat) : List Nat :=
  (List.range 48).foldl
    (fun acc _ =>
      let i := acc.length
      let x15 := acc.getD (i - 15) 0
      let x2 := acc.getD (i - 2) 0
      let s0 := (rotr x15 7) ^^^ (rotr x15 18) ^^^ (x15 >>> 3)
      let s1 := (rotr x2 17) ^^^ (rotr x2 19) ^^^ (x2 >>> 10)
      acc ++ [(acc.getD (i - 16) 0 + s0 + acc.getD (i - 7) 0 + s1) % w32])
    ws

/-- One SHA-256 compression round. -/
def sha256step (st : Nat × Nat × Nat × Nat × Nat × Nat × Nat × Nat)
    (kw : Nat × Nat) : Nat × Nat × Nat × Nat × Nat × Nat × Nat × Nat :=
  let (a, b, c, d, e, f, g, h) := st
  let s1 := (rotr e 6) ^^^ (rotr e 11) ^^^ (rotr e 25)
  let ch := (e &&& f) ^^^ ((w32 - 1 - e) &&& g)
  let t1 := (h + s1 + ch + kw.1 + kw.2) % w32
  let s0 := (rotr a 2) ^^^ (rotr a 13) ^^^ (rotr a 22)
  let mj := (a &&& b) ^^^ (a &&& c) ^^^ (b &&& c)
  let t2 := (s0 + mj) % w32
  ((t1 + t2) % w32, a, b, c, (d + t1) % w32, e, f, g)

/-- Process one 64-byte chunk of the padded message. -/
def sha256chunk (h : List Nat) (chunk : List Nat) : List Nat :=
  let ws := extendSchedule (toWordsBE chunk)
  let init := (h.getD 0 0, h.getD 1 0, h.getD 2 0, h.getD 3 0,
               h.getD 4 0, h.getD 5 0, h.getD 6 0, h.getD 7 0)
  let (a, b, c, d, e, f, g, hh) := (sha256k.zip ws).foldl sha256step init
  [(h.getD 0 0 + a) % w32, (h.getD 1 0 + b) % w32,
   (h.getD 2 0 + c) % w32, (h.getD 3 0 + d) % w32,
   (h.getD 4 0 + e) % w32, (h.getD 5 0 + f) % w32,
   (h.getD 6 0 + g) % w32, (h.getD 7 0 + hh) % w32]

/-- Eight hexadecimal digits of one 32-bit word. -/
def wordHex (w : Nat) : String :=
  String.mk ((List.range 8).map (fun i => hexDigit ((w >>> (28 - 4 * i)) &&& 15)))

/-- SHA-256 digest of a string, as 64 lower-case hex characters. -/
def sha256hex (s : String) : String :=
  let chunks := chunksOf 64 (sha256pad (strBytes s))
  let final := chunks.foldl sha256chunk sha256h0
  String.join (final.map wordHex)

-- ---------------------------------------------------------------------
-- uniqueKeySuffix and toDict (src/payload/models.ts)
-- ---------------------------------------------------------------------

/-- uniqueKeySuffix: first 16 hex characters of the SHA-256 digest of the
canonical (cleaned, key-sorted) JSON serialization of the payload. -/
def uniqueKeySuffix (payload : Json) : String :=
  (sha256hex (serializeJson (sortedClean payload))).take 16

/-- toDict: convert a fibre payload to a plain dict, stripping
undefined/null fields (same cleaning as the hash input). -/
def toDict (payload : Json) : Json := sortedClean payload

/-- Property access `obj[k]` on an embedded object (keys are unique in
objects built from literals, so the first binding is the value). -/
def Json.get (j : Json) (k : String) : Option Json :=
  match j with
  | .obj fields => fields.lookup k
  | _ => none

-- ---------------------------------------------------------------------
-- Dates.  A JavaScript Date is an integer count of milliseconds since
-- the Unix epoch; `new Date(x)` truncates its argument toward zero.
-- ---------------------------------------------------------------------

/-- Truncation toward zero, as applied by the Date constructor. -/
def jsTrunc (q : Rat) : Int := if 0 ≤ q then ⌊q⌋ else ⌈q⌉

/-- Zero-padded decimal rendering. -/
def padNum (w n : Nat) : String :=
  let s := toString n
  String.mk (List.replicate (w - s.length) (Char.ofNat 48)) ++ s

/-- Date.toISOString: "YYYY-MM-DDTHH:mm:ss.sssZ" (civil-from-days
conversion; years outside 0000–9999 use an extended form in JavaScript,
never reached by the providers). -/
def isoOfMs (ms : Int) : String :=
  let days : Int := Int.fdiv ms 86400000
  let msod : Nat := (ms - days * 86400000).toNat
  let hh := msod / 3600000
  let mi := msod % 3600000 / 60000
  let ss := msod % 60000 / 1000
  let mss := msod % 1000
  let z : Int := days + 719468
  let era : Int := Int.fdiv z 146097
  let doe : Nat := (z - era * 146097).toNat
  let yoe : Nat := (doe - doe / 1460 + doe / 36524 - doe / 146096) / 365
  let doy : Nat := doe - (365 * yoe + yoe / 4 - yoe / 100)
  let mp : Nat := (5 * doy + 2) / 153
  let d : Nat := doy - (153 * mp + 2) / 5 + 1
  let m : Nat := if mp < 10 then mp + 3 else mp - 9
  let y : Int := (yoe : Int) + era * 400 + (if m ≤ 2 then 1 else 0)
  let ys := if y < 0 then "-" ++ padNum 4 (-y).toNat else padNum 4 y.toNat
  ys ++ "-" ++ padNum 2 m ++ "-" ++ padNum 2 d ++ "T" ++ padNum 2 hh ++
    ":" ++ padNum 2 mi ++ ":" ++ padNum 2 ss ++ "." ++ padNum 3 mss ++ "Z"

-- ---------------------------------------------------------------------
-- Timestamp heuristic (safeTimestamp, ChatGPT conversations module)
-- ---------------------------------------------------------------------

/-- Timestamps above this threshold are treated as milliseconds
(year 2100 and later). -/
def MAX_SECONDS_EPOCH : Rat := 4102444800

/-- safeTimestamp: null-propagating conversion of a raw numeric
timestamp to Date milliseconds, dividing by 1000 first when the value
exceeds the seconds-since-epoch ceiling. -/
def safeTimestamp (ts : Option Rat) : Option Int :=
  ts.map (fun v0 =>
    let v := if v0 > MAX_SECONDS_EPOCH then v0 / 1000 else v0
    jsTrunc (v * 1000))

/-- The Date milliseconds computed by the Instagram media transform:
`new Date(ts * 1000)` with no milliseconds reinterpretation. -/
def instagramAsatMs (ts : Rat) : Int := jsTrunc (ts * 1000)

-- ---------------------------------------------------------------------
-- Factory helpers (src/payload/models.ts)
-- ---------------------------------------------------------------------

def CURRENT_THREAD_PAYLOAD_VERSION : String := "1.0.0"

/-- JavaScript string truthiness: null/undefined and "" are falsy. -/
def truthyS : Option String → Bool
  | some s => s ≠ ""
  | none => false

/-- A field added only when the string option is truthy
(the `if (opts.x) o.x = opts.x` idiom). -/
def fieldIfTruthy (k : String) (v : Option String) : List (String × Json) :=
  match v with
  | some s => if s = "" then [] else [(k, .str s)]
  | none => []

/-- A field added whenever the option is present
(the `if (x !== undefined) o.k = x` idiom). -/
def fieldIfSome (k : String) (v : Option String) : List (String × Json) :=
  match v with
  | some s => [(k, .str s)]
  | none => []

/-- makeApplication. -/
def makeApplication (name : String) : Json :=
  .obj [("@type", .str "Application"), ("name", .str name)]

/-- makeCollection: "@type" then optional name then optional "@id",
added on an explicit not-undefined check. -/
def makeCollection (name id : Option String) : Json :=
  .obj ([("@type", .str "Collection")] ++ fieldIfSome "name" name ++
    fieldIfSome "@id" id)

/-- makeTextMessage. -/
def makeTextMessage (content : String) (context : Option Json) : Json :=
  .obj ([("@type", .str "Note"), ("fibre_kind", .str "TextMessage"),
    ("content", .str content)] ++
    (match context with | some c => [("context", c)] | none => []))

/-- makeImage: url/name/published added only when truthy. -/
def makeImage (url name published : Option String) : Json :=
  .obj ([("@type", .str "Image")] ++ fieldIfTruthy "url" url ++
    fieldIfTruthy "name" name ++ fieldIfTruthy "published" published)

/-- makeVideo: url/name/published added only when truthy. -/
def makeVideo (url name published : Option String) : Json :=
  .obj ([("@type", .str "Video")] ++ fieldIfTruthy "url" url ++
    fieldIfTruthy "name" name ++ fieldIfTruthy "published" published)

/-- makeSendMessage. -/
def makeSendMessage (object target : Json) (published : Option String) : Json :=
  .obj ([("@type", .str "Create"), ("fibre_kind", .str "SendMessage"),
    ("object", object), ("target", target)] ++
    fieldIfTruthy "published" published)

/-- makeReceiveMessage. -/
def makeReceiveMessage (object actor : Json) (published : Option String) : Json :=
  .obj ([("@type", .str "Create"), ("fibre_kind", .str "ReceiveMessage"),
    ("object", object), ("actor", actor)] ++
    fieldIfTruthy "published" published)

/-- makeCreateObject. -/
def makeCreateObject (object : Json) (published : Option String) : Json :=
  .obj ([("@type", .str "Create"), ("fibre_kind", .str "Create"),
    ("object", object)] ++ fieldIfTruthy "published" published)

-- ---------------------------------------------------------------------
-- Preview helpers (src/payload/models.ts)
-- ---------------------------------------------------------------------

/-- getTextMessagePreview: truncate the content to 100 characters with an
ellipsis marker. -/
def getTextMessagePreview (msg : Json) : String :=
  let content := match msg.get "content" with | some (.str s) => s | _ => ""
  let truncated :=
    if content.length > 100 then (content.take 100) ++ "..." else content
  "message \"" ++ truncated ++ "\""

/-- getObjectPreview: dispatch on the object's fibre kind. -/
def getObjectPreview (obj : Json) : String :=
  if obj.get "fibre_kind" = some (.str "TextMessage") then
    getTextMessagePreview obj
  else if obj.get "fibre_kind" = some (.str "Image") then "image"
  else if obj.get "fibre_kind" = some (.str "Video") then "video"
  else "object"

/-- String.prototype.toLowerCase, exercised by the providers only on
ASCII data ("Image"/"Video" type tags and media file extensions). -/
def asciiLower (s : String) : String :=
  String.mk (s.data.map (fun c =>
    if 65 ≤ c.toNat && c.toNat ≤ 90 then Char.ofNat (c.toNat + 32) else c))

/-- getCreateObjectPreview: "Posted {kind} on {provider}". -/
def getCreateObjectPreview (payload : Json) (provider : String) : String :=
  "Posted " ++
    (match (payload.get "object").bind (fun o => o.get "@type") with
     | some (.str s) => asciiLower s
     | _ => "object") ++
    (if provider = "" then "" else " on " ++ provider)

/-- The `x?.name ?? "unknown"` access of the send/receive previews. -/
def nameOrUnknown (o : Option Json) : String :=
  match o.bind (fun j => j.get "name") with
  | some (.str s) => s
  | _ => "unknown"

/-- getSendMessagePreview: "Sent {object} to {target} on {provider}". -/
def getSendMessagePreview (payload : Json) (provider : String) : String :=
  "Sent " ++
    (match payload.get "object" with
     | some o => getObjectPreview o
     | none => getObjectPreview .null) ++
    " to " ++ nameOrUnknown (payload.get "target") ++
    (if provider = "" then "" else " on " ++ provider)

/-- getReceiveMessagePreview: "Received {object} from {actor} on
{provider}". -/
def getReceiveMessagePreview (payload : Json) (provider : String) : String :=
  "Received " ++
    (match payload.get "object" with
     | some o => getObjectPreview o
     | none => getObjectPreview .null) ++
    " from " ++ nameOrUnknown (payload.get "actor") ++
    (if provider = "" then "" else " on " ++ provider)

-- ---------------------------------------------------------------------
-- Core types (src/core/types.ts)
-- ---------------------------------------------------------------------

/-- TaskMetadata: passed through every pipeline step. -/
structure TaskMetadata where
  archiveId : String
  etlTaskId : String
  provider : String
  interactionType : String
  filenames : List String
  tapestryId : Option String := none
deriving DecidableEq, Repr

/-- ThreadRow: one normalized record ready for DB insertion.  `asatMs`
embeds the Date field as integer epoch milliseconds. -/
structure ThreadRow where
  uniqueKey : String
  provider : String
  interactionType : String
  preview : String
  payload : Json
  source : Option String
  version : String
  asatMs : Int
  assetUri : Option String
deriving DecidableEq, Repr

/-- TaskDescriptor: produced by orchestration discovery. -/
structure TaskDescriptor where
  interactionType : String
  filenames : List String
deriving DecidableEq, Repr

-- ---------------------------------------------------------------------
-- Task discovery (OrchestrationStrategy.discoverTasks, src/core/etl.ts)
-- ---------------------------------------------------------------------

/-- discoverTasks: for each (pattern, interactionType) entry of the
manifest map, collect the files byte-for-byte equal to
`archiveId ++ "/" ++ pattern`; a pattern with at least one match yields
one descriptor carrying all its matches. -/
def discoverTasks (manifestMap : List (String × String)) (archiveId : String)
    (files : List String) : List TaskDescriptor :=
  manifestMap.filterMap (fun pi =>
    let expected := archiveId ++ "/" ++ pi.1
    let matching := files.filter (fun f => f == expected)
    if matching.length > 0 then some ⟨pi.2, matching⟩ else none)

/-- ChatGPTOrchestrationStrategy.MANIFEST_MAP. -/
def chatgptManifestMap : List (String × String) :=
  [("conversations.json", "chatgpt_conversations")]

/-- InstagramOrchestrationStrategy.MANIFEST_MAP. -/
def instagramManifestMap : List (String × String) :=
  [("your_instagram_activity/media/stories.json", "instagram_stories"),
   ("your_instagram_activity/media/reels.json", "instagram_reels")]

/-- Modelled from the spec: the path-pattern semantics section 4.1
ascribes to manifest patterns containing wildcards — `*` matches any
(possibly empty) run of characters within one path segment.  No glob
matcher exists in src; discoverTasks compares byte-for-byte. -/
def specGlobMatchF : Nat → List Char → List Char → Bool
  | 0, _, _ => false
  | _ + 1, [], [] => true
  | _ + 1, [], _ :: _ => false
  | fuel + 1, '*' :: ps, [] => specGlobMatchF fuel ps []
  | fuel + 1, '*' :: ps, c :: ss =>
    specGlobMatchF fuel ps (c :: ss) ||
      (c != '/' && specGlobMatchF fuel ('*' :: ps) ss)
  | _ + 1, _ :: _, [] => false
  | fuel + 1, p :: ps, c :: ss => p == c && specGlobMatchF fuel ps ss

/-- Entry point of the spec-modelled glob matcher; the fuel bounds the
recursion depth, which never exceeds pattern length + path length. -/
def specGlobMatch (p s : List Char) : Bool :=
  specGlobMatchF (p.length + s.length + 1) p s

-- ---------------------------------------------------------------------
-- ChatGPT transform (ChatGPTConversationsTransformStrategy)
-- ---------------------------------------------------------------------

/-- One raw record as pushed by the ChatGPT extraction stage:
role/content/create-time/conversation id and title/source.  `none`
embeds JavaScript null. -/
structure RawChatRecord where
  role : String
  content : String
  create_time : Option Rat
  conversation_id : Option String
  conversation_title : Option String
  source : Option String
deriving DecidableEq, Repr

/-- CHATGPT_APPLICATION. -/
def CHATGPT_APPLICATION : Json := makeApplication "assistant"

/-- buildPayload: role "user" maps to SendMessage, "assistant" to
ReceiveMessage, anything else to null (the record is then skipped). -/
def chatgptBuildPayload (record : RawChatRecord) : Option Json :=
  let context : Option Json :=
    if truthyS record.conversation_title || truthyS record.conversation_id then
      some (makeCollection record.conversation_title
        (match record.conversation_id with
         | some cid =>
           if cid = "" then none else some ("https://chatgpt.com/c/" ++ cid)
         | none => none))
    else none
  let message := makeTextMessage record.content context
  let published := (safeTimestamp record.create_time).map isoOfMs
  if record.role = "user" then
    some (makeSendMessage message CHATGPT_APPLICATION published)
  else if record.role = "assistant" then
    some (makeReceiveMessage message CHATGPT_APPLICATION published)
  else
    none

/-- One iteration of the ChatGPT transform loop body: `none` when the
record is skipped (buildPayload returned null). -/
def chatgptRowOf (task : TaskMetadata) (nowMs : Int) (record : RawChatRecord) :
    Option ThreadRow :=
  match chatgptBuildPayload record with
  | none => none
  | some payload =>
    let asat := (safeTimestamp record.create_time).getD nowMs
    let dict := toDict payload
    some
      { uniqueKey := "chatgpt_conversations:" ++ uniqueKeySuffix dict
        provider := task.provider
        interactionType := task.interactionType
        preview :=
          if payload.get "fibre_kind" = some (.str "SendMessage") then
            getSendMessagePreview payload "ChatGPT"
          else
            getReceiveMessagePreview payload "ChatGPT"
        payload := dict
        source := record.source
        version := CURRENT_THREAD_PAYLOAD_VERSION
        asatMs := asat
        assetUri := none }

/-- ChatGPTConversationsTransformStrategy.transform: per input batch,
skip records without payload and keep the batch only when non-empty.
`nowMs` embeds `new Date()`, the fallback event time. -/
def chatgptTransform (task : TaskMetadata) (nowMs : Int)
    (batches : List (List RawChatRecord)) : List (List ThreadRow) :=
  batches.filterMap (fun batch =>
    let rows := batch.filterMap (chatgptRowOf task nowMs)
    if rows.isEmpty then none else some rows)

-- ---------------------------------------------------------------------
-- Instagram transform (InstagramMediaTransformStrategy)
-- ---------------------------------------------------------------------

/-- One raw record as pushed by the Instagram media extraction stage. -/
structure RawMediaRecord where
  uri : String
  creation_timestamp : Rat
  title : String
  media_type : String
  source : Option String
deriving DecidableEq, Repr

/-- buildPayload: wrap the media object (Video when media type is
"Video", else Image) in a Create activity. -/
def instagramBuildPayload (record : RawMediaRecord) : Option Json :=
  let published := isoOfMs (jsTrunc (record.creation_timestamp * 1000))
  let mediaObj :=
    if record.media_type = "Video" then
      makeVideo (some record.uri) (some record.title) (some published)
    else
      makeImage (some record.uri) (some record.title) (some published)
  some (makeCreateObject mediaObj (some published))

/-- One iteration of the Instagram transform loop body. -/
def instagramRowOf (task : TaskMetadata) (record : RawMediaRecord) :
    Option ThreadRow :=
  match instagramBuildPayload record with
  | none => none
  | some payload =>
    let dict := toDict payload
    some
      { uniqueKey := task.interactionType ++ ":" ++ uniqueKeySuffix dict
        provider := task.provider
        interactionType := task.interactionType
        preview := getCreateObjectPreview payload task.provider
        payload := dict
        source := record.source
        version := CURRENT_THREAD_PAYLOAD_VERSION
        asatMs := instagramAsatMs record.creation_timestamp
        assetUri := some record.uri }

/-- InstagramMediaTransformStrategy.transform (shared by the stories and
reels strategies). -/
def instagramTransform (task : TaskMetadata)
    (batches : List (List RawMediaRecord)) : List (List ThreadRow) :=
  batches.filterMap (fun batch =>
    let rows := batch.filterMap (instagramRowOf task)
    if rows.isEmpty then none else some rows)

-- ---------------------------------------------------------------------
-- Extraction strategies.  The storage backend is embedded as a map from
-- keys to the parsed JSON document of the stored bytes; `none` covers
-- both a missing key (read failure) and unparseable bytes, which are
-- equally fatal to the task.
-- ---------------------------------------------------------------------

/-- A storage backend, as seen by extraction. -/
def Storage : Type := String → Option Json

/-- JavaScript truthiness of an embedded value. -/
def jsTruthy : Json → Bool
  | .null => false
  | .bool b => b
  | .num q => q ≠ 0
  | .str s => s ≠ ""
  | .arr _ => true
  | .obj _ => true

/-- Truthiness of a property access (undefined is falsy). -/
def truthyO : Option Json → Bool
  | some j => jsTruthy j
  | none => false

/-- ChatGPTMessageSchema.safeParse on the content.parts field:
optional().nullable() array of strings.  `none` for a valid parse whose
parts are absent or null, `some none` for a schema violation. -/
def parseParts (v : Option Json) : Option (Option (List String)) :=
  match v with
  | none => some none
  | some .null => some none
  | some (.arr xs) =>
    match xs.mapM (fun x => match x with | .str s => some s | _ => none) with
    | some ss => some (some ss)
    | none => none
  | some _ => none

/-- ChatGPTMessageSchema.safeParse on the create_time field:
optional().nullable() number. -/
def parseCreateTime (v : Option Json) : Option (Option Rat) :=
  match v with
  | none => some none
  | some .null => some none
  | some (.num q) => some (some q)
  | some _ => none

/-- The per-mapping-item body of the ChatGPT extraction loop: apply the
filters and the message schema and emit zero or one raw records. -/
def chatgptMessageRecord (title cid : Option String) (item : Json) :
    List RawChatRecord :=
  let msgOpt := item.get "message"
  match msgOpt with
  | none => []
  | some msg =>
    if !jsTruthy msg then []
    else if !truthyO (msg.get "author") || !truthyO (msg.get "content") then []
    else if (msg.get "content").bind (fun c => c.get "content_type")
        ≠ some (.str "text") then []
    else
      -- ChatGPTMessageSchema.safeParse: author.role must be a string,
      -- content.parts a nullable optional string array, create_time a
      -- nullable optional number; a failed parse skips the record.
      match (msg.get "author").bind (fun a => a.get "role") with
      | some (.str role) =>
        match parseParts ((msg.get "content").bind (fun c => c.get "parts")),
            parseCreateTime (msg.get "create_time") with
        | some parts, some createTime =>
          if role = "system" then []
          else
            match parts with
            | none => []
            | some [] => []
            | some (text :: _) =>
              if text = "" then []
              else if text.trim = "" then []
              else
                [{ role := role, content := text, create_time := createTime
                   conversation_id := cid, conversation_title := title
                   source := some (serializeJson msg) }]
        | _, _ => []
      | _ => []

/-- The per-conversation body of the ChatGPT extraction stream handler. -/
def conversationRecords (conversation : Json) : List RawChatRecord :=
  let title := match conversation.get "title" with
    | some (.str s) => some s
    | _ => none
  let cid := match conversation.get "conversation_id" with
    | some (.str s) => some s
    | _ => none
  let mapping := match conversation.get "mapping" with
    | some (.obj kvs) => kvs
    | _ => []
  mapping.flatMap (fun kv => chatgptMessageRecord title cid kv.2)

/-- CHUNK_SIZE: records are regrouped into bounded batches. -/
def CHUNK_SIZE : Nat := 500

/-- ChatGPTConversationsExtractionStrategy.extract: stream the JSON array
at the first task filename, filter and chunk the contained messages.  A
missing or unparseable file, or a non-array top level, rejects the
promise and fails the task. -/
def chatgptExtract (task : TaskMetadata) (storage : Storage) :
    Except String (List (List RawChatRecord)) :=
  match task.filenames.head? with
  | none => .error "TypeError: no filename at index 0"
  | some key =>
    match storage key with
    | none => .error ("read failed: " ++ key)
    | some (.arr convs) =>
      .ok (chunksOf CHUNK_SIZE (convs.flatMap conversationRecords))
    | some _ => .error "Top-level object should be an array."

/-- String.prototype.endsWith. -/
def endsWithB (s pat : String) : Bool := pat.data.isSuffixOf s.data

/-- The video extension test of inferMediaType
(/\.(mp4|mov|avi|webm|srt)$/ on the lower-cased uri). -/
def inferMediaType (uri : String) : String :=
  let lower := asciiLower uri
  if endsWithB lower ".mp4" || endsWithB lower ".mov" || endsWithB lower ".avi"
      || endsWithB lower ".webm" || endsWithB lower ".srt" then "Video"
  else "Image"

/-- InstagramMediaItemSchema.parse: uri string, creation_timestamp
number, title string defaulting to "" when absent, media_metadata an
optional nullable record. -/
def parseMediaItem (j : Json) : Option (String × Rat × String) :=
  match j with
  | .obj _ =>
    match j.get "uri", j.get "creation_timestamp" with
    | some (.str uri), some (.num ts) =>
      match j.get "title" with
      | none =>
        match j.get "media_metadata" with
        | none | some .null | some (.obj _) => some (uri, ts, "")
        | some _ => none
      | some (.str t) =>
        match j.get "media_metadata" with
        | none | some .null | some (.obj _) => some (uri, ts, t)
        | some _ => none
      | some _ => none
    | _, _ => none
  | _ => none

/-- itemsToRecords: attach the inferred media type and the audit source
string to each manifest item. -/
def itemsToRecords (items : List (String × Rat × String)) (sourceFile : String) :
    List RawMediaRecord :=
  items.map (fun item =>
    { uri := item.1, creation_timestamp := item.2.1, title := item.2.2
      media_type := inferMediaType item.1
      source := some (serializeJson
        (.obj [("file", .str sourceFile), ("uri", .str item.1)])) })

/-- InstagramStoriesExtractionStrategy.extract: parse the stories
manifest at the first task filename; a schema violation throws and fails
the task; an empty manifest yields zero batches. -/
def instagramStoriesExtract (task : TaskMetadata) (storage : Storage) :
    Except String (List (List RawMediaRecord)) :=
  match task.filenames.head? with
  | none => .error "TypeError: no filename at index 0"
  | some key =>
    match storage key with
    | none => .error ("read failed: " ++ key)
    | some j =>
      match j.get "ig_stories" with
      | some (.arr items) =>
        match items.mapM parseMediaItem with
        | some parsed =>
          let records := itemsToRecords parsed key
          if records.isEmpty then .ok [] else .ok [records]
        | none => .error "ZodError: invalid ig_stories item"
      | _ => .error "ZodError: ig_stories required"

/-- InstagramReelsExtractionStrategy.extract: like stories, with the
items nested one level deeper (entry.media) and flattened. -/
def instagramReelsExtract (task : TaskMetadata) (storage : Storage) :
    Except String (List (List RawMediaRecord)) :=
  match task.filenames.head? with
  | none => .error "TypeError: no filename at index 0"
  | some key =>
    match storage key with
    | none => .error ("read failed: " ++ key)
    | some j =>
      match j.get "ig_reels_media" with
      | some (.arr entries) =>
        match entries.mapM (fun e =>
            match e.get "media" with
            | some (.arr items) => items.mapM parseMediaItem
            | _ => none) with
        | some parsedLists =>
          let records := itemsToRecords parsedLists.flatten key
          if records.isEmpty then .ok [] else .ok [records]
        | none => .error "ZodError: invalid ig_reels_media entry"
      | _ => .error "ZodError: ig_reels_media required"

-- ---------------------------------------------------------------------
-- Database: the threads table (src/db/schema.sql) and the INSERT of
-- UploadStrategy.upload (src/core/etl.ts), under the BEGIN/COMMIT/
-- ROLLBACK semantics of SQLiteBackend.transaction (src/db/sqlite.ts).
-- ---------------------------------------------------------------------

/-- One persisted threads row.  The random UUID id and the created_at /
updated_at wall-clock columns are not modelled; every remaining INSERT
parameter is.  payloadText is JSON.stringify(row.payload) and asatText is
row.asat.toISOString(), as bound by the INSERT. -/
structure DbThread where
  uniqueKey : String
  tapestryId : Option String
  etlTaskId : String
  provider : String
  interactionType : String
  preview : String
  payloadText : String
  assetUri : Option String
  source : Option String
  version : String
  asatText : String
deriving DecidableEq, Repr

/-- The relational store state visible to the upload path. -/
structure DbState where
  threads : List DbThread
deriving DecidableEq, Repr

/-- The INSERT parameter binding of UploadStrategy.upload. -/
def rowToDb (task : TaskMetadata) (row : ThreadRow) : DbThread :=
  { uniqueKey := row.uniqueKey
    tapestryId := task.tapestryId
    etlTaskId := task.etlTaskId
    provider := row.provider
    interactionType := row.interactionType
    preview := row.preview
    payloadText := serializeJson row.payload
    assetUri := row.assetUri
    source := row.source
    version := row.version
    asatText := isoOfMs row.asatMs }

/-- A single INSERT INTO threads.  The schema declares
unique_key TEXT NOT NULL UNIQUE with no conflict clause, and the INSERT
carries no OR IGNORE / ON CONFLICT, so a duplicate key raises the
default-ABORT constraint error. -/
def insertThread (task : TaskMetadata) (row : ThreadRow) (db : DbState) :
    Except String DbState :=
  if db.threads.any (fun r => r.uniqueKey == row.uniqueKey) then
    .error "UNIQUE constraint failed: threads.unique_key"
  else
    .ok ⟨db.threads ++ [rowToDb task row]⟩

/-- The doubly nested insert loop of upload, with its running total. -/
def insertRows (task : TaskMetadata) :
    List ThreadRow → Nat → DbState → Except String (Nat × DbState)
  | [], total, db => .ok (total, db)
  | row :: rest, total, db =>
    match insertThread task row db with
    | .error e => .error e
    | .ok db2 => insertRows task rest (total + 1) db2

/-- UploadStrategy.upload: all inserts run inside one transaction; a
committed transaction returns the inserted count and the grown store, a
failed one re-raises after ROLLBACK, leaving the store unchanged. -/
def uploadStrategy (task : TaskMetadata) (batches : List (List ThreadRow))
    (db : DbState) : Except String Nat × DbState :=
  match insertRows task (batches.flatMap id) 0 db with
  | .ok (total, db2) => (.ok total, db2)
  | .error e => (.error e, db)

/-- ETLPipeline stage wrapping: a raised error is re-thrown as the typed
stage exception carrying the underlying message. -/
def wrapErr (tag : String) : Except String α → Except String α
  | .error e => .error (tag ++ e)
  | .ok a => .ok a

/-- ETLPipeline.upload: persistence errors become UploadFailed. -/
def pipelineUpload (task : TaskMetadata) (batches : List (List ThreadRow))
    (db : DbState) : Except String Nat × DbState :=
  match uploadStrategy task batches db with
  | (.error e, db2) => (.error ("Upload failed: " ++ e), db2)
  | ok => ok

-- ---------------------------------------------------------------------
-- Archive orchestrator (ContextUse.processArchive, src/cli.ts): the
-- per-task loop with its etl_tasks status/counter updates and the
-- aggregated PipelineResult.
-- ---------------------------------------------------------------------

/-- One etl_tasks row.  The id, archive reference, provider and
timestamps are not needed by any claim and are omitted. -/
structure EtlTaskRec where
  interactionType : String
  status : String
  extractedCount : Nat
  transformedCount : Nat
  uploadedCount : Nat
deriving DecidableEq, Repr

/-- The INSERT INTO etl_tasks row: status created, counters at their
schema defaults of zero. -/
def newEtlTaskRec (it : String) : EtlTaskRec :=
  ⟨it, "created", 0, 0, 0⟩

/-- The strategies the registry supplies for one task, presented as the
already-wrapped pipeline stages (extract, transform, upload). -/
structure TaskRun (ρ : Type) where
  extractF : Except String (List (List ρ))
  transformF : List (List ρ) → Except String (List (List ThreadRow))
  uploadF : List (List ThreadRow) → DbState → Except String Nat × DbState

/-- `raw.reduce((s, b) => s + b.length, 0)`. -/
def batchCount (batches : List (List α)) : Nat :=
  batches.foldl (fun s b => s + b.length) 0

/-- The per-task try block of processArchive: statuses advance
extracting → transforming → uploading; the three counters are written
together with status completed only by the final success UPDATE; the
catch block sets status failed and returns the error. -/
def processTask {ρ : Type} (run : TaskRun ρ) (rec0 : EtlTaskRec)
    (db : DbState) : EtlTaskRec × DbState × Except String Nat :=
  let rec1 := { rec0 with status := "extracting" }
  match wrapErr "Extraction failed: " run.extractF with
  | .error e => ({ rec1 with status := "failed" }, db, .error e)
  | .ok raw =>
    let rec2 := { rec1 with status := "transforming" }
    match wrapErr "Transform failed: " (run.transformF raw) with
    | .error e => ({ rec2 with status := "failed" }, db, .error e)
    | .ok threadBatches =>
      let rec3 := { rec2 with status := "uploading" }
      match run.uploadF threadBatches db with
      | (.error e, db2) => ({ rec3 with status := "failed" }, db2, .error e)
      | (.ok count, db2) =>
        ({ rec3 with
            status := "completed"
            extractedCount := batchCount raw
            transformedCount := batchCount threadBatches
            uploadedCount := count },
         db2, .ok count)

/-- PipelineResult (src/core/types.ts), without the archive id. -/
structure ResultCounts where
  tasksCompleted : Nat
  tasksFailed : Nat
  threadsCreated : Nat
  errors : List String
deriving DecidableEq, Repr

/-- The task loop of processArchive: descriptors whose interaction type
has no registry entry are skipped before any etl_tasks row exists; every
other descriptor gets a task row and a pipeline run, with stage errors
caught locally and appended to the error list. -/
def processTasks {ρ : Type} (runOf : TaskDescriptor → Option (TaskRun ρ)) :
    List TaskDescriptor → DbState → List EtlTaskRec × DbState × ResultCounts
  | [], db => ([], db, ⟨0, 0, 0, []⟩)
  | desc :: rest, db =>
    match runOf desc with
    | none => processTasks runOf rest db
    | some run =>
      let (rec1, db2, res) := processTask run (newEtlTaskRec desc.interactionType) db
      let (recs, db3, counts) := processTasks runOf rest db2
      match res with
      | .ok n =>
        (rec1 :: recs, db3,
         { counts with
            tasksCompleted := counts.tasksCompleted + 1
            threadsCreated := counts.threadsCreated + n })
      | .error e =>
        (rec1 :: recs, db3,
         { counts with
            tasksFailed := counts.tasksFailed + 1
            errors := e :: counts.errors })

/-- The final archive status: completed exactly when zero tasks
failed. -/
def archiveFinalStatus (counts : ResultCounts) : String :=
  if counts.tasksFailed = 0 then "completed" else "failed"

/-- Concrete fixtures shared by the upload theorems. -/
def fixtureTask : TaskMetadata :=
  ⟨"arch", "task1", "instagram", "instagram_stories", ["k"], none⟩

def fixtureRowA : ThreadRow :=
  ⟨"instagram_stories:aaaa000000000000", "instagram", "instagram_stories",
    "Posted image on instagram", .obj [("fibre_kind", .str "Create")],
    none, "1.0.0", 0, some "u1"⟩

def fixtureRowB : ThreadRow :=
  ⟨"instagram_stories:bbbb000000000000", "instagram", "instagram_stories",
    "Posted video on instagram", .obj [("fibre_kind", .str "Create")],
    none, "1.0.0", 1000, some "u2"⟩

/-- Concrete task runs for the orchestrator witnesses: one healthy task,
one whose extraction fails, one unknown interaction type. -/
def fixtureRunOk : TaskRun Unit :=
  ⟨.ok [[()]], fun _ => .ok [[fixtureRowA]],
    fun tb db => (.ok (batchCount tb), db)⟩

def fixtureRunBad : TaskRun Unit :=
  ⟨.error "read failed: k", fun _ => .ok [], fun _ db => (.ok 0, db)⟩

def fixtureRunOf : TaskDescriptor → Option (TaskRun Unit) := fun d =>
  if d.interactionType = "good" then some fixtureRunOk
  else if d.interactionType = "bad" then some fixtureRunBad
  else none

def fixtureDescs : List TaskDescriptor :=
  [⟨"good", ["f1"]⟩, ⟨"bad", ["f2"]⟩, ⟨"unknown", ["f3"]⟩]

/-- The payload dictionary `j` carries the kind tag `kind`. -/
def hasKindTag (j : Json) (kind : String) : Prop :=
  ∃ fields, j = .obj fields ∧ ("fibre_kind", Json.str kind) ∈ fields

/-- Concrete fixtures for the transform-invariant witness. -/
def cgTask : TaskMetadata :=
  ⟨"arch", "t1", "chatgpt", "chatgpt_conversations",
    ["arch/conversations.json"], none⟩

def cgRecU : RawChatRecord := ⟨"user", "hello", none, none, none, some "src"⟩

def igTask : TaskMetadata :=
  ⟨"arch", "t2", "instagram", "instagram_stories",
    ["arch/your_instagram_activity/media/stories.json"], none⟩

def igRec : RawMediaRecord := ⟨"media/a.jpg", 1600000000, "T", "Image", some "s"⟩

def emptyRow : ThreadRow := ⟨"", "", "", "", .null, none, "", 0, none⟩

def cgRowW : ThreadRow :=
  ((chatgptTransform cgTask 0 [[cgRecU]]).flatten).headD emptyRow

def igRowW : ThreadRow :=
  ((instagramTransform igTask [[igRec]]).flatten).headD emptyRow

-- ---------------------------------------------------------------------
-- Specification side of C3: well-formed values and equality up to
-- object-key insertion order and null/undefined fields.
-- ---------------------------------------------------------------------

/-- The bindings that survive cleaning: values that are not null (an
undefined property is an absent binding). -/
def dropNulls (kvs : List (String × Json)) : List (String × Json) :=
  kvs.filter (fun kv => !kv.2.isNull)

/-- Clean one binding. -/
def cleanKV (kv : String × Json) : String × Json := (kv.1, sortedClean kv.2)

mutual
/-- Well-formed values: object keys are distinct at every level, as they
are for values built from JavaScript objects. -/
def wfB : Json → Bool
  | .null => true
  | .bool _ => true
  | .num _ => true
  | .str _ => true
  | .arr xs => wfElems xs
  | .obj kvs => decide ((kvs.map Prod.fst).Nodup) && wfFields kvs

def wfElems : List Json → Bool
  | [] => true
  | x :: xs => wfB x && wfElems xs

def wfFields : List (String × Json) → Bool
  | [] => true
  | (_, v) :: rest => wfB v && wfFields rest
end

mutual
/-- Equality of payloads up to object-key insertion order and
null/undefined fields: scalars must agree, arrays are compared
pointwise, and objects are compared after dropping null bindings, up to
a permutation matching bindings with equal keys and equivalent
values. -/
inductive JEquiv : Json → Json → Prop where
  | null : JEquiv .null .null
  | bool (b : Bool) : JEquiv (.bool b) (.bool b)
  | num (q : Rat) : JEquiv (.num q) (.num q)
  | str (s : String) : JEquiv (.str s) (.str s)
  | arr {xs ys : List Json} : JEquivElems xs ys → JEquiv (.arr xs) (.arr ys)
  | obj {kvs kws l : List (String × Json)} :
      List.Perm (dropNulls kvs) l → JEquivFields l (dropNulls kws) →
      JEquiv (.obj kvs) (.obj kws)

inductive JEquivElems : List Json → List Json → Prop where
  | nil : JEquivElems [] []
  | cons {x y : Json} {xs ys : List Json} :
      JEquiv x y → JEquivElems xs ys → JEquivElems (x :: xs) (y :: ys)

inductive JEquivFields :
    List (String × Json) → List (String × Json) → Prop where
  | nil : JEquivFields [] []
  | cons {k : String} {v w : Json} {xs ys : List (String × Json)} :
      JEquiv v w → JEquivFields xs ys →
      JEquivFields ((k, v) :: xs) ((k, w) :: ys)
end

/-- The strict sorting relation: keys ordered and distinct. -/
def strictKeyRel (a b : String × Json) : Prop := keyRel a b ∧ a.1 ≠ b.1

-- =====================================================================
-- Theorems
-- =====================================================================

-- ---------------------------------------------------------------------
-- The lexicographic key order is total, transitive and key-antisymmetric.
-- ---------------------------------------------------------------------

lemma charsLe_total : ∀ a b : List Char, charsLe a b = true ∨ charsLe b a = true
  | [], _ => Or.inl rfl
  | _ :: _, [] => Or.inr rfl
  | c :: cs, d :: ds => by
    by_cases hcd : c = d
    · subst hcd
      simpa [charsLe] using charsLe_total cs ds
    · rcases lt_or_gt_of_ne hcd with hlt | hgt
      · exact Or.inl (by simp [charsLe, hcd, hlt])
      · exact Or.inr (by simp [charsLe, Ne.symm hcd, hgt])

lemma charsLe_trans :
    ∀ a b c : List Char, charsLe a b = true → charsLe b c = true →
      charsLe a c = true
  | [], _, _ => by intro _ _; rfl
  | x :: xs, [], _ => by intro h _; simp [charsLe] at h
  | x :: xs, y :: ys, [] => by intro _ h; simp [charsLe] at h
  | x :: xs, y :: ys, z :: zs => by
    intro h1 h2
    by_cases hxy : x = y
    · subst hxy
      rw [charsLe, if_pos rfl] at h1
      by_cases hxz : x = z
      · subst hxz
        rw [charsLe, if_pos rfl] at h2 ⊢
        exact charsLe_trans xs ys zs h1 h2
      · rw [charsLe, if_neg hxz] at h2 ⊢
        exact h2
    · rw [charsLe, if_neg hxy, decide_eq_true_iff] at h1
      by_cases hyz : y = z
      · subst hyz
        rw [charsLe, if_neg hxy, decide_eq_true_iff]
        exact h1
      · rw [charsLe, if_neg hyz, decide_eq_true_iff] at h2
        have hxz : x < z := lt_trans h1 h2
        rw [charsLe, if_neg (ne_of_lt hxz), decide_eq_true_iff]
        exact hxz

lemma charsLe_antisymm :
    ∀ a b : List Char, charsLe a b = true → charsLe b a = true → a = b
  | [], [] => by intro _ _; rfl
  | [], _ :: _ => by intro _ h; simp [charsLe] at h
  | _ :: _, [] => by intro h _; simp [charsLe] at h
  | x :: xs, y :: ys => by
    intro h1 h2
    by_cases hxy : x = y
    · subst hxy
      rw [charsLe, if_pos rfl] at h1 h2
      rw [charsLe_antisymm xs ys h1 h2]
    · rw [charsLe, if_neg hxy, decide_eq_true_iff] at h1
      rw [charsLe, if_neg (Ne.symm hxy), decide_eq_true_iff] at h2
      exact absurd h2 (lt_asymm h1)

instance : IsTotal (String × Json) keyRel :=
  ⟨fun a b => charsLe_total a.1.data b.1.data⟩

instance : IsTrans (String × Json) keyRel :=
  ⟨fun a b c hab hbc => charsLe_trans a.1.data b.1.data c.1.data hab hbc⟩

lemma keyLe_antisymm {a b : String} (h1 : keyLe a b = true)
    (h2 : keyLe b a = true) : a = b := by
  cases a; cases b
  exact congrArg String.mk (charsLe_antisymm _ _ h1 h2)

instance : IsAntisymm (String × Json) strictKeyRel :=
  ⟨fun a b h1 h2 => absurd (keyLe_antisymm h1.1 h2.1) h1.2⟩

/-- A key-sorted list with distinct keys is sorted under the strict
relation. -/
lemma sorted_strict {L : List (String × Json)} (hs : L.Sorted keyRel)
    (hn : (L.map Prod.fst).Nodup) : L.Sorted strictKeyRel := by
  have hne : L.Pairwise (fun a b : String × Json => a.1 ≠ b.1) :=
    List.pairwise_map.1 hn
  exact hs.and hne

-- ---------------------------------------------------------------------
-- cleanFields in terms of dropNulls, and key bookkeeping.
-- ---------------------------------------------------------------------

lemma cleanFields_eq :
    ∀ kvs : List (String × Json), cleanFields kvs = (dropNulls kvs).map cleanKV
  | [] => rfl
  | (k, v) :: rest => by
    by_cases hv : v.isNull = true
    · simp [cleanFields, dropNulls, hv, List.filter_cons,
        cleanFields_eq rest]
    · rw [Bool.not_eq_true] at hv
      simp [cleanFields, dropNulls, hv, List.filter_cons, cleanKV,
        cleanFields_eq rest]

lemma keys_cleanFields (kvs : List (String × Json)) :
    (cleanFields kvs).map Prod.fst = (dropNulls kvs).map Prod.fst := by
  rw [cleanFields_eq, List.map_map]
  rfl

lemma nodup_keys_cleanFields {kvs : List (String × Json)}
    (h : (kvs.map Prod.fst).Nodup) : ((cleanFields kvs).map Prod.fst).Nodup := by
  rw [keys_cleanFields]
  exact h.sublist ((List.filter_sublist kvs).map Prod.fst)

-- ---------------------------------------------------------------------
-- Well-formedness bookkeeping.
-- ---------------------------------------------------------------------

lemma wfB_obj {kvs : List (String × Json)} (h : wfB (.obj kvs) = true) :
    (kvs.map Prod.fst).Nodup ∧ wfFields kvs = true := by
  rw [wfB, Bool.and_eq_true, decide_eq_true_iff] at h
  exact h

lemma wfFields_mem :
    ∀ {kvs : List (String × Json)}, wfFields kvs = true →
      ∀ kv ∈ kvs, wfB kv.2 = true := by
  intro kvs
  induction kvs with
  | nil => intro _ kv h; cases h
  | cons hd tl ih =>
    obtain ⟨k, v⟩ := hd
    intro h kv hm
    rw [wfFields, Bool.and_eq_true] at h
    rcases List.mem_cons.1 hm with heq | hmem
    · subst heq; exact h.1
    · exact ih h.2 kv hmem

-- ---------------------------------------------------------------------
-- Invariance of the canonical form under JEquiv.
-- ---------------------------------------------------------------------

/-- Fuel-indexed form of the invariance proof: strong induction on the
size of the value, with inner list inductions inverting the
derivation. -/
theorem jequiv_clean_main :
    ∀ (n : Nat) (a b : Json), sizeOf a ≤ n → JEquiv a b →
      wfB a = true → wfB b = true → sortedClean a = sortedClean b := by
  intro n
  induction n with
  | zero =>
    intro a b hsz
    exfalso
    cases a <;> simp at hsz
  | succ n ih =>
    intro a b hsz h hwa hwb
    have elemsClean : ∀ (xs ys : List Json), (∀ x ∈ xs, sizeOf x ≤ n) →
        JEquivElems xs ys → wfElems xs = true → wfElems ys = true →
        cleanList xs = cleanList ys := by
      intro xs
      induction xs with
      | nil =>
        intro ys _ hder _ _
        cases hder
        rfl
      | cons x xs ihl =>
        intro ys hszl hder hwxa hwxb
        cases hder with
        | cons hxy hrest =>
          rw [wfElems, Bool.and_eq_true] at hwxa hwxb
          simp only [cleanList]
          rw [ih x _ (hszl x (List.mem_cons_self _ _)) hxy hwxa.1 hwxb.1,
            ihl _ (fun z hz => hszl z (List.mem_cons_of_mem _ hz)) hrest
              hwxa.2 hwxb.2]
    have fieldsClean : ∀ (xs ys : List (String × Json)),
        (∀ kv ∈ xs, sizeOf kv.2 ≤ n) → JEquivFields xs ys →
        (∀ kv ∈ xs, wfB kv.2 = true) → (∀ kv ∈ ys, wfB kv.2 = true) →
        xs.map cleanKV = ys.map cleanKV := by
      intro xs
      induction xs with
      | nil =>
        intro ys _ hder _ _
        cases hder
        rfl
      | cons kv xs ihl =>
        intro ys hszl hder hfa hfb
        cases hder with
        | cons hvw hrest =>
          simp only [List.map_cons, cleanKV]
          rw [ih _ _ (hszl _ (List.mem_cons_self _ _)) hvw
              (hfa _ (List.mem_cons_self _ _))
              (hfb _ (List.mem_cons_self _ _)),
            ihl _ (fun z hz => hszl z (List.mem_cons_of_mem _ hz)) hrest
              (fun z hz => hfa z (List.mem_cons_of_mem _ hz))
              (fun z hz => hfb z (List.mem_cons_of_mem _ hz))]
    cases h with
    | null => rfl
    | bool _ => rfl
    | num _ => rfl
    | str _ => rfl
    | arr helems =>
      rename_i xs ys
      have hszl : ∀ x ∈ xs, sizeOf x ≤ n := by
        intro x hx
        have h1 := List.sizeOf_lt_of_mem hx
        have h2 : sizeOf (Json.arr xs) = 1 + sizeOf xs := by simp
        omega
      simp only [sortedClean]
      exact congrArg Json.arr (elemsClean xs ys hszl helems hwa hwb)
    | obj hperm hfields =>
      rename_i kvs kws l
      obtain ⟨hnda, hwfa⟩ := wfB_obj hwa
      obtain ⟨hndb, hwfb⟩ := wfB_obj hwb
      have hmeml : ∀ kv ∈ l, kv ∈ kvs := fun kv hm =>
        List.mem_of_mem_filter (hperm.symm.subset hm)
      have hszl : ∀ kv ∈ l, sizeOf kv.2 ≤ n := by
        intro kv hm
        have h1 := List.sizeOf_lt_of_mem (hmeml kv hm)
        have h2 : sizeOf (Json.obj kvs) = 1 + sizeOf kvs := by simp
        obtain ⟨k, v⟩ := kv
        have h3 : sizeOf ((k, v) : String × Json) = 1 + sizeOf k + sizeOf v := by
          simp
        simp only at h1 ⊢
        omega
      have hsubl : ∀ kv ∈ l, wfB kv.2 = true := fun kv hm =>
        wfFields_mem hwfa kv (hmeml kv hm)
      have hsubr : ∀ kv ∈ dropNulls kws, wfB kv.2 = true := fun kv hm =>
        wfFields_mem hwfb kv (List.mem_of_mem_filter hm)
      have hmapeq : l.map cleanKV = (dropNulls kws).map cleanKV :=
        fieldsClean l (dropNulls kws) hszl hfields hsubl hsubr
      have hpermC : List.Perm (cleanFields kvs) (cleanFields kws) := by
        rw [cleanFields_eq, cleanFields_eq, ← hmapeq]
        exact hperm.map cleanKV
      have hpermS : List.Perm (sortKey (cleanFields kvs))
          (sortKey (cleanFields kws)) :=
        ((List.perm_insertionSort keyRel _).trans hpermC).trans
          (List.perm_insertionSort keyRel _).symm
      have hsort1 : (sortKey (cleanFields kvs)).Sorted keyRel :=
        List.sorted_insertionSort keyRel _
      have hsort2 : (sortKey (cleanFields kws)).Sorted keyRel :=
        List.sorted_insertionSort keyRel _
      have hkey1 : ((sortKey (cleanFields kvs)).map Prod.fst).Nodup :=
        (((List.perm_insertionSort keyRel _).map Prod.fst).nodup_iff).2
          (nodup_keys_cleanFields hnda)
      have hkey2 : ((sortKey (cleanFields kws)).map Prod.fst).Nodup :=
        (((List.perm_insertionSort keyRel _).map Prod.fst).nodup_iff).2
          (nodup_keys_cleanFields hndb)
      simp only [sortedClean]
      exact congrArg Json.obj
        (List.eq_of_perm_of_sorted hpermS (sorted_strict hsort1 hkey1)
          (sorted_strict hsort2 hkey2))

/-- Invariance of the canonical form under JEquiv. -/
lemma jequiv_sortedClean {a b : Json} (h : JEquiv a b) (ha : wfB a = true)
    (hb : wfB b = true) : sortedClean a = sortedClean b :=
  jequiv_clean_main (sizeOf a) a b le_rfl h ha hb

/-- C3: uniqueKeySuffix is deterministic; it is the first 16 hex
characters of the SHA-256 digest of the canonical serialization of the
cleaned, key-sorted payload; the key sort is a genuine sort (a
permutation of the input bindings, ordered by key); and two well-formed
payloads equal up to object-key insertion order and null/undefined
fields receive the same suffix. -/
theorem uniqueKeySuffix_canonical :
    (∀ P : Json, uniqueKeySuffix P = uniqueKeySuffix P) ∧
    (∀ P : Json, uniqueKeySuffix P =
      (sha256hex (serializeJson (sortedClean P))).take 16) ∧
    (∀ kvs : List (String × Json),
      List.Perm (sortKey kvs) kvs ∧ (sortKey kvs).Sorted keyRel) ∧
    (∀ P Q : Json, wfB P = true → wfB Q = true → JEquiv P Q →
      uniqueKeySuffix P = uniqueKeySuffix Q) := by
  refine ⟨fun P => rfl, fun P => rfl, ?_, ?_⟩
  · exact fun kvs => ⟨List.perm_insertionSort keyRel kvs,
      List.sorted_insertionSort keyRel kvs⟩
  · intro P Q hP hQ h
    unfold uniqueKeySuffix
    rw [jequiv_sortedClean h hP hQ]

/-- C3 (witness): two concrete payloads differing in key order and in a
null field hash to the same suffix. -/
theorem uniqueKeySuffix_canonical_witness :
    wfB (.obj [("b", .str "x"), ("a", .str "y"), ("c", .null)]) = true ∧
    wfB (.obj [("a", .str "y"), ("b", .str "x")]) = true ∧
    uniqueKeySuffix (.obj [("b", .str "x"), ("a", .str "y"), ("c", .null)])
      = uniqueKeySuffix (.obj [("a", .str "y"), ("b", .str "x")]) :=
  ⟨by decide, by decide,
   uniqueKeySuffix_canonical.2.2.2 _ _ (by decide) (by decide)
     (JEquiv.obj (List.Perm.swap ("a", Json.str "y") ("b", Json.str "x") [])
       (JEquivFields.cons (JEquiv.str "y")
         (JEquivFields.cons (JEquiv.str "x") JEquivFields.nil)))⟩

/-- C2 (counterexample): the wildcard pattern "*.json" glob-matches both
files of the listing, yet discoverTasks produces zero task descriptors —
not one per matched file — because patterns are compared byte-for-byte
and a literal "arch/*.json" equals neither path. -/
theorem discoverTasks_wildcard_cex :
    (["arch/a.json", "arch/b.json"].filter
        (fun f => specGlobMatch "arch/*.json".data f.data)).length = 2 ∧
    discoverTasks [("*.json", "conv")] "arch" ["arch/a.json", "arch/b.json"]
      = [] := by
  exact ⟨by decide, rfl⟩

/-- Unfolding equation of discoverTasks on a manifest entry. -/
lemma discoverTasks_cons (hd : String × String) (tl : List (String × String))
    (a : String) (files : List String) :
    discoverTasks (hd :: tl) a files =
      if 0 < (files.filter (fun f => f == a ++ "/" ++ hd.1)).length then
        ⟨hd.2, files.filter (fun f => f == a ++ "/" ++ hd.1)⟩
          :: discoverTasks tl a files
      else discoverTasks tl a files := by
  simp only [discoverTasks, List.filterMap_cons]
  by_cases h : 0 < (files.filter (fun f => f == a ++ "/" ++ hd.1)).length
  · simp [h]
  · simp [h]

/-- Helper for C2: every discovered descriptor comes from a manifest
entry whose prefixed pattern some file equals byte-for-byte, and carries
exactly the equal files. -/
lemma discoverTasks_mem_spec (m : List (String × String)) (a : String)
    (files : List String) :
    ∀ d ∈ discoverTasks m a files,
      ∃ p, (p, d.interactionType) ∈ m ∧
        d.filenames = files.filter (fun f => f == a ++ "/" ++ p) ∧
        d.filenames ≠ [] := by
  induction m with
  | nil => simp [discoverTasks]
  | cons hd tl ih =>
    intro d hmem
    rw [discoverTasks_cons] at hmem
    split at hmem
    · rename_i h
      rcases List.mem_cons.1 hmem with heq | hmem2
      · subst heq
        refine ⟨hd.1, List.mem_cons_self _ _, rfl, ?_⟩
        show files.filter (fun f => f == a ++ "/" ++ hd.1) ≠ []
        intro hnil
        rw [hnil] at h
        simp at h
      · obtain ⟨p, hp, h1, h2⟩ := ih d hmem2
        exact ⟨p, List.mem_cons_of_mem _ hp, h1, h2⟩
    · obtain ⟨p, hp, h1, h2⟩ := ih d hmem
      exact ⟨p, List.mem_cons_of_mem _ hp, h1, h2⟩

/-- Helper for C2: one descriptor per matched pattern, however many
files a pattern matches. -/
lemma discoverTasks_length_spec (m : List (String × String)) (a : String)
    (files : List String) :
    (discoverTasks m a files).length =
      (m.filter (fun pi =>
        0 < (files.filter (fun f => f == a ++ "/" ++ pi.1)).length)).length := by
  induction m with
  | nil => rfl
  | cons hd tl ih =>
    rw [discoverTasks_cons, List.filter_cons]
    by_cases h : 0 < (files.filter (fun f => f == a ++ "/" ++ hd.1)).length
    · simp [h, ih]
    · simp [h, ih]

/-- C2 (amended): discoverTasks interprets no wildcards: every manifest
pattern is matched only by byte-for-byte equality of archiveId/pattern
against the listing, and each pattern with at least one equal file
yields exactly one descriptor carrying all files equal to it. -/
theorem discoverTasks_exact (m : List (String × String)) (a : String)
    (files : List String) :
    (∀ d ∈ discoverTasks m a files,
      ∃ p, (p, d.interactionType) ∈ m ∧
        d.filenames = files.filter (fun f => f == a ++ "/" ++ p) ∧
        d.filenames ≠ []) ∧
    (discoverTasks m a files).length =
      (m.filter (fun pi =>
        0 < (files.filter (fun f => f == a ++ "/" ++ pi.1)).length)).length :=
  ⟨discoverTasks_mem_spec m a files, discoverTasks_length_spec m a files⟩

/-- C2 (witness for the amended theorem): instantiated on the ChatGPT
manifest map with one exactly-matching file and one near-miss. -/
theorem discoverTasks_exact_witness :
    (∀ d ∈ discoverTasks chatgptManifestMap "arch"
        ["arch/conversations.json", "arch/shared_conversations.json"],
      ∃ p, (p, d.interactionType) ∈ chatgptManifestMap ∧
        d.filenames = ["arch/conversations.json",
          "arch/shared_conversations.json"].filter
            (fun f => f == "arch" ++ "/" ++ p) ∧
        d.filenames ≠ []) ∧
    (discoverTasks chatgptManifestMap "arch"
        ["arch/conversations.json", "arch/shared_conversations.json"]).length
      = (chatgptManifestMap.filter (fun pi =>
          0 < (["arch/conversations.json",
            "arch/shared_conversations.json"].filter
              (fun f => f == "arch" ++ "/" ++ pi.1)).length)).length :=
  discoverTasks_exact chatgptManifestMap "arch"
    ["arch/conversations.json", "arch/shared_conversations.json"]

/-- Helper for C4: past the ceiling the two ingestion paths disagree:
the ChatGPT path divides by 1000 before converting, the Instagram path
multiplies by 1000 unconditionally. -/
lemma instagram_vs_safeTimestamp (ts : Rat) (h : MAX_SECONDS_EPOCH < ts) :
    instagramAsatMs ts ≠ (safeTimestamp (some ts)).getD 0 := by
  have hts : (0 : Rat) < ts := lt_trans (by norm_num [MAX_SECONDS_EPOCH]) h
  have hdiv : ts / 1000 * 1000 = ts := by
    field_simp
  have hsafe : (safeTimestamp (some ts)).getD 0 = jsTrunc ts := by
    simp [safeTimestamp, h, hdiv]
  rw [hsafe]
  show jsTrunc (ts * 1000) ≠ jsTrunc ts
  have h1 : (0 : Rat) ≤ ts := le_of_lt hts
  have h2 : (0 : Rat) ≤ ts * 1000 := by positivity
  simp only [jsTrunc, if_pos h1, if_pos h2]
  intro heq
  have hfl : (⌊ts⌋ : Rat) ≤ ts := Int.floor_le ts
  have hlow : (4102444800 : Rat) < ts := by
    simpa [MAX_SECONDS_EPOCH] using h
  have hstep : ⌊ts⌋ + 1 ≤ ⌊ts * 1000⌋ := by
    rw [Int.le_floor]
    push_cast
    nlinarith
  omega

/-- C4 (counterexample): on the raw timestamp 4102444801000 — a
milliseconds value just past the seconds ceiling — the ChatGPT
safeTimestamp heuristic divides by 1000 while the Instagram media
transform multiplies by 1000 as if it were seconds, so the heuristic is
not applied uniformly in every strategy. -/
theorem timestamp_heuristic_cex :
    MAX_SECONDS_EPOCH < (4102444801000 : Rat) ∧
    safeTimestamp (some 4102444801000) = some 4102444801000 ∧
    instagramAsatMs 4102444801000 = 4102444801000000 ∧
    instagramAsatMs 4102444801000 ≠ (safeTimestamp (some 4102444801000)).getD 0 := by
  refine ⟨by norm_num [MAX_SECONDS_EPOCH], ?_, ?_,
    instagram_vs_safeTimestamp 4102444801000 (by norm_num [MAX_SECONDS_EPOCH])⟩
  · show some (jsTrunc (((4102444801000 : Rat) / 1000) * 1000)) = _
    norm_num [jsTrunc]
  · show jsTrunc ((4102444801000 : Rat) * 1000) = _
    norm_num [jsTrunc]

/-- C4 (amended): the milliseconds-reinterpretation heuristic lives only
in the ChatGPT transform's safeTimestamp; the Instagram media transform
always treats creation_timestamp as seconds.  The two agree exactly on
values not exceeding the ceiling and always disagree beyond it. -/
theorem timestamp_heuristic_per_strategy (ts : Rat) :
    safeTimestamp (some ts) =
      some (jsTrunc ((if ts > MAX_SECONDS_EPOCH then ts / 1000 else ts) * 1000)) ∧
    instagramAsatMs ts = jsTrunc (ts * 1000) ∧
    (ts ≤ MAX_SECONDS_EPOCH → instagramAsatMs ts = (safeTimestamp (some ts)).getD 0) ∧
    (MAX_SECONDS_EPOCH < ts → instagramAsatMs ts ≠ (safeTimestamp (some ts)).getD 0) := by
  refine ⟨rfl, rfl, ?_, instagram_vs_safeTimestamp ts⟩
  intro h
  simp [safeTimestamp, instagramAsatMs, not_lt.2 h]

/-- C4 (witness): the amended theorem applied on both sides of the
ceiling — at 1700000000 (agreement) and at 4102444801000
(disagreement). -/
theorem timestamp_heuristic_witness :
    ((1700000000 : Rat) ≤ MAX_SECONDS_EPOCH ∧
      instagramAsatMs 1700000000 = (safeTimestamp (some 1700000000)).getD 0) ∧
    (MAX_SECONDS_EPOCH < (4102444801000 : Rat) ∧
      instagramAsatMs 4102444801000 ≠ (safeTimestamp (some 4102444801000)).getD 0) :=
  ⟨⟨by norm_num [MAX_SECONDS_EPOCH],
    (timestamp_heuristic_per_strategy 1700000000).2.2.1
      (by norm_num [MAX_SECONDS_EPOCH])⟩,
   ⟨by norm_num [MAX_SECONDS_EPOCH],
    (timestamp_heuristic_per_strategy 4102444801000).2.2.2
      (by norm_num [MAX_SECONDS_EPOCH])⟩⟩

/-- C9 (counterexample): a record whose author role is "tool" — mappable
to no payload variant — is silently dropped by the ChatGPT transform:
buildPayload returns null, the transform emits no row, and no
TransformFailed error is raised (the stage returns ok). -/
theorem unmappable_role_cex :
    chatgptBuildPayload ⟨"tool", "hi", none, none, none, none⟩ = none ∧
    chatgptTransform ⟨"a", "t", "chatgpt", "chatgpt_conversations", ["f"], none⟩ 0
        [[⟨"tool", "hi", none, none, none, none⟩]] = [] ∧
    wrapErr "Transform failed: "
        (Except.ok (chatgptTransform
          ⟨"a", "t", "chatgpt", "chatgpt_conversations", ["f"], none⟩ 0
          [[⟨"tool", "hi", none, none, none, none⟩]]))
      = Except.ok [] := by
  exact ⟨rfl, rfl, rfl⟩

/-- C9 (amended): a raw record whose role is neither "user" nor
"assistant" yields no payload and is skipped without any error: the
TransformFailed wrapper is reached only by thrown strategy errors, which
this total transform never produces. -/
theorem unmappable_role_dropped (task : TaskMetadata) (nowMs : Int)
    (record : RawChatRecord) (h1 : record.role ≠ "user")
    (h2 : record.role ≠ "assistant") :
    chatgptBuildPayload record = none ∧
    chatgptTransform task nowMs [[record]] = [] := by
  have hb : chatgptBuildPayload record = none := by
    simp [chatgptBuildPayload, h1, h2]
  refine ⟨hb, ?_⟩
  simp [chatgptTransform, chatgptRowOf, hb]

/-- C9 (witness): the amended theorem at a concrete "tool" record. -/
theorem unmappable_role_dropped_witness :
    chatgptBuildPayload ⟨"tool", "x", none, none, none, some "s"⟩ = none ∧
    chatgptTransform ⟨"a", "t", "chatgpt", "chatgpt_conversations", ["f"], none⟩ 7
        [[⟨"tool", "x", none, none, none, some "s"⟩]] = [] :=
  unmappable_role_dropped _ 7 _ (by decide) (by decide)

/-- C10: every extraction strategy reads only the first filename of the
task: the result is unchanged if the remaining filenames are removed and
if the storage is altered anywhere except at the first filename. -/
theorem extraction_reads_only_first (t : TaskMetadata) (st st2 : Storage)
    (f : String) (rest : List String) (hf : t.filenames = f :: rest)
    (hst : st f = st2 f) :
    chatgptExtract t st = chatgptExtract { t with filenames := [f] } st2 ∧
    instagramStoriesExtract t st
      = instagramStoriesExtract { t with filenames := [f] } st2 ∧
    instagramReelsExtract t st
      = instagramReelsExtract { t with filenames := [f] } st2 := by
  refine ⟨?_, ?_, ?_⟩ <;>
    simp only [chatgptExtract, instagramStoriesExtract, instagramReelsExtract,
      hf, hst, List.head?]

/-- Helper for C5: a fully successful insert loop inserts every row in
order and counts them. -/
lemma insertRows_ok (task : TaskMetadata) :
    ∀ (rows : List ThreadRow) (total : Nat) (db : DbState) (n : Nat)
      (db2 : DbState),
      insertRows task rows total db = .ok (n, db2) →
      n = total + rows.length ∧
      db2.threads = db.threads ++ rows.map (rowToDb task) := by
  intro rows
  induction rows with
  | nil =>
    intro total db n db2 h
    simp only [insertRows, Except.ok.injEq, Prod.mk.injEq] at h
    obtain ⟨h1, h2⟩ := h
    subst h1; subst h2
    simp
  | cons row rest ih =>
    intro total db n db2 h
    simp only [insertRows] at h
    cases hin : insertThread task row db with
    | error e => rw [hin] at h; simp at h
    | ok db1 =>
      rw [hin] at h
      obtain ⟨h1, h2⟩ := ih (total + 1) db1 n db2 h
      have hdb1 : db1.threads = db.threads ++ [rowToDb task row] := by
        unfold insertThread at hin
        split at hin
        · simp at hin
        · simp only [Except.ok.injEq] at hin
          rw [← hin]
      constructor
      · simp only [List.length_cons]
        omega
      · rw [h2, hdb1, List.append_assoc]
        simp

/-- C5: UploadStrategy.upload inserts all of a task's rows inside one
transaction: on success the returned count is the total number of rows
across batches and every row is appended to the store; on any insert
error the transaction rolls back, the store is exactly the original, and
the error is wrapped as UploadFailed, failing only this task. -/
theorem upload_transactional (task : TaskMetadata)
    (batches : List (List ThreadRow)) (db : DbState) :
    (∀ n, (uploadStrategy task batches db).1 = Except.ok n →
      n = (batches.flatMap id).length ∧
      (uploadStrategy task batches db).2.threads =
        db.threads ++ (batches.flatMap id).map (rowToDb task) ∧
      pipelineUpload task batches db =
        (Except.ok n, (uploadStrategy task batches db).2)) ∧
    (∀ e, (uploadStrategy task batches db).1 = Except.error e →
      (uploadStrategy task batches db).2 = db ∧
      pipelineUpload task batches db =
        (Except.error ("Upload failed: " ++ e), db)) := by
  cases hr : insertRows task (batches.flatMap id) 0 db with
  | ok pair =>
    obtain ⟨n0, dbNew⟩ := pair
    have hspec := insertRows_ok task (batches.flatMap id) 0 db n0 dbNew hr
    have hu : uploadStrategy task batches db = (Except.ok n0, dbNew) := by
      unfold uploadStrategy
      rw [hr]
    constructor
    · intro n hok
      rw [hu] at hok
      simp only [Except.ok.injEq] at hok
      subst hok
      rw [hu]
      refine ⟨by simpa using hspec.1, hspec.2, ?_⟩
      simp [pipelineUpload, hu]
    · intro e herr
      rw [hu] at herr
      simp at herr
  | error e0 =>
    have hu : uploadStrategy task batches db = (Except.error e0, db) := by
      unfold uploadStrategy
      rw [hr]
    constructor
    · intro n hok
      rw [hu] at hok
      simp at hok
    · intro e herr
      rw [hu] at herr
      simp only [Except.error.injEq] at herr
      subst herr
      rw [hu]
      exact ⟨rfl, by simp [pipelineUpload, hu]⟩



/-- C5 (witness): the transactional theorem applied to two rows of one
task uploaded into an empty store. -/
theorem upload_transactional_witness :
    (uploadStrategy fixtureTask [[fixtureRowA], [fixtureRowB]] ⟨[]⟩).1
        = Except.ok 2 ∧
    (2 = ([[fixtureRowA], [fixtureRowB]].flatMap id).length ∧
      (uploadStrategy fixtureTask [[fixtureRowA], [fixtureRowB]] ⟨[]⟩).2.threads =
        (⟨[]⟩ : DbState).threads ++
          ([[fixtureRowA], [fixtureRowB]].flatMap id).map (rowToDb fixtureTask) ∧
      pipelineUpload fixtureTask [[fixtureRowA], [fixtureRowB]] ⟨[]⟩ =
        (Except.ok 2,
          (uploadStrategy fixtureTask [[fixtureRowA], [fixtureRowB]] ⟨[]⟩).2)) :=
  ⟨rfl, (upload_transactional fixtureTask [[fixtureRowA], [fixtureRowB]] ⟨[]⟩).1
    2 rfl⟩

/-- C1 (code evaluated at the failing input): re-uploading the same
task rows against a store already holding their unique keys raises the
UNIQUE constraint error — wrapped as UploadFailed — instead of ignoring
the conflict; the rollback leaves zero new rows, but the task fails. -/
theorem duplicate_unique_key_hard_failure :
    (uploadStrategy fixtureTask [[fixtureRowA]] ⟨[]⟩).1 = Except.ok 1 ∧
    (uploadStrategy fixtureTask [[fixtureRowA]]
        (uploadStrategy fixtureTask [[fixtureRowA]] ⟨[]⟩).2).1
      = Except.error "UNIQUE constraint failed: threads.unique_key" ∧
    (uploadStrategy fixtureTask [[fixtureRowA]]
        (uploadStrategy fixtureTask [[fixtureRowA]] ⟨[]⟩).2).2
      = (uploadStrategy fixtureTask [[fixtureRowA]] ⟨[]⟩).2 ∧
    (pipelineUpload fixtureTask [[fixtureRowA]]
        (uploadStrategy fixtureTask [[fixtureRowA]] ⟨[]⟩).2).1
      = Except.error "Upload failed: UNIQUE constraint failed: threads.unique_key" :=
  ⟨rfl, rfl, rfl, rfl⟩

/-- Helper for C6/C8: the persisted task status mirrors the task
outcome: completed on ok, failed on error. -/
lemma processTask_status {ρ : Type} (run : TaskRun ρ) (rec0 : EtlTaskRec)
    (db : DbState) :
    (processTask run rec0 db).1.status =
      match (processTask run rec0 db).2.2 with
      | .ok _ => "completed"
      | .error _ => "failed" := by
  unfold processTask
  cases wrapErr "Extraction failed: " run.extractF with
  | error e => rfl
  | ok raw =>
    dsimp only
    cases wrapErr "Transform failed: " (run.transformF raw) with
    | error e => rfl
    | ok tb =>
      dsimp only
      rcases hu : run.uploadF tb db with ⟨res, db2⟩
      cases res <;> rfl

/-- Helper for C6: the inductive characterization of the task loop. -/
lemma processTasks_spec {ρ : Type} (runOf : TaskDescriptor → Option (TaskRun ρ)) :
    ∀ (descs : List TaskDescriptor) (db : DbState),
      (processTasks runOf descs db).1.length =
        (descs.filter (fun d => (runOf d).isSome)).length ∧
      (processTasks runOf descs db).2.2.tasksCompleted =
        ((processTasks runOf descs db).1.filter
          (fun r => r.status == "completed")).length ∧
      (processTasks runOf descs db).2.2.tasksFailed =
        ((processTasks runOf descs db).1.filter
          (fun r => r.status == "failed")).length ∧
      (processTasks runOf descs db).2.2.errors.length =
        (processTasks runOf descs db).2.2.tasksFailed := by
  intro descs
  induction descs with
  | nil => intro db; simp [processTasks]
  | cons desc rest ih =>
    intro db
    cases hro : runOf desc with
    | none =>
      have hskip : processTasks runOf (desc :: rest) db
          = processTasks runOf rest db := by
        simp only [processTasks]
        rw [hro]
      rw [hskip, List.filter_cons]
      have : (runOf desc).isSome = false := by rw [hro]; rfl
      rw [this]
      simpa using ih db
    | some run =>
      have hstat := processTask_status run (newEtlTaskRec desc.interactionType) db
      obtain ⟨ih1, ih2, ih3, ih4⟩ :=
        ih (processTask run (newEtlTaskRec desc.interactionType) db).2.1
      have hfil : (runOf desc).isSome = true := by rw [hro]; rfl
      have hcf : ¬ (("completed" : String) = "failed") := by decide
      have hfc : ¬ (("failed" : String) = "completed") := by decide
      simp only [processTasks, hro]
      cases h22 : (processTask run (newEtlTaskRec desc.interactionType) db).2.2 with
      | ok n =>
        rw [h22] at hstat
        dsimp only at hstat ⊢
        refine ⟨?_, ?_, ?_, ?_⟩
        · simp [List.filter_cons, hfil, ih1]
        · simp [List.filter_cons, hstat, ih2]
        · simp [List.filter_cons, hstat, hcf, ih3]
        · simpa using ih4
      | error e =>
        rw [h22] at hstat
        dsimp only at hstat ⊢
        refine ⟨?_, ?_, ?_, ?_⟩
        · simp [List.filter_cons, hfil, ih1]
        · simp [List.filter_cons, hstat, hfc, ih2]
        · simp [List.filter_cons, hstat, ih3]
        · simp [ih4]

/-- C6: processArchive catches every task-stage error locally: each
failed task contributes one error entry and siblings still run (one task
record per known descriptor); the archive status is completed exactly
when zero tasks failed; a single failing task forces status failed with
a non-empty error list; an empty descriptor list (no pattern matched)
yields zero completed tasks, zero threads and an archive that counts as
completed. -/
theorem orchestrator_isolates_task_failures {ρ : Type}
    (runOf : TaskDescriptor → Option (TaskRun ρ)) (descs : List TaskDescriptor)
    (db : DbState) :
    (processTasks runOf descs db).1.length =
      (descs.filter (fun d => (runOf d).isSome)).length ∧
    (processTasks runOf descs db).2.2.tasksCompleted =
      ((processTasks runOf descs db).1.filter
        (fun r => r.status == "completed")).length ∧
    (processTasks runOf descs db).2.2.tasksFailed =
      ((processTasks runOf descs db).1.filter
        (fun r => r.status == "failed")).length ∧
    (processTasks runOf descs db).2.2.errors.length =
      (processTasks runOf descs db).2.2.tasksFailed ∧
    (archiveFinalStatus (processTasks runOf descs db).2.2 = "completed" ↔
      (processTasks runOf descs db).2.2.tasksFailed = 0) ∧
    ((processTasks runOf descs db).2.2.tasksFailed = 1 →
      archiveFinalStatus (processTasks runOf descs db).2.2 = "failed" ∧
      (processTasks runOf descs db).2.2.errors ≠ []) ∧
    (processTasks runOf ([] : List TaskDescriptor) db = ([], db, ⟨0, 0, 0, []⟩) ∧
      archiveFinalStatus ⟨0, 0, 0, []⟩ = "completed") := by
  obtain ⟨h1, h2, h3, h4⟩ := processTasks_spec runOf descs db
  refine ⟨h1, h2, h3, h4, ?_, ?_, rfl, rfl⟩
  · unfold archiveFinalStatus
    by_cases h : (processTasks runOf descs db).2.2.tasksFailed = 0
    · simp [h]
    · simp only [if_neg h]
      constructor
      · intro hcon; exact absurd hcon (by decide)
      · intro hcon; exact absurd hcon h
  · intro hone
    constructor
    · unfold archiveFinalStatus
      rw [if_neg (by omega)]
    · intro hnil
      rw [hnil] at h4
      simp at h4
      omega



/-- C6 (witness): an archive with one corrupt-source task among a valid
task and an undeclared file: one failure, status failed, one error,
sibling completed. -/
theorem orchestrator_isolates_task_failures_witness :
    (processTasks fixtureRunOf fixtureDescs ⟨[]⟩).2.2.tasksFailed = 1 ∧
    (archiveFinalStatus (processTasks fixtureRunOf fixtureDescs ⟨[]⟩).2.2
        = "failed" ∧
      (processTasks fixtureRunOf fixtureDescs ⟨[]⟩).2.2.errors ≠ []) :=
  ⟨rfl,
   (orchestrator_isolates_task_failures fixtureRunOf fixtureDescs
      ⟨[]⟩).2.2.2.2.2.1 rfl⟩

/-- C8 (counterexample): a task whose extraction succeeds with one
record and whose transform succeeds with one row, but whose upload
fails, persists status failed with all three counters still zero —
extracted_count and transformed_count are not recorded even though the
earlier stages completed. -/
theorem counts_lost_on_failure_cex :
    batchCount ([[()]] : List (List Unit)) = 1 ∧
    (processTask
        (⟨.ok [[()]], fun _ => .ok [[fixtureRowA]],
          fun _ db => (.error "Upload failed: boom", db)⟩ : TaskRun Unit)
        (newEtlTaskRec "instagram_stories") ⟨[]⟩).1
      = ⟨"instagram_stories", "failed", 0, 0, 0⟩ ∧
    (processTask
        (⟨.ok [[()]], fun _ => .ok [[fixtureRowA]],
          fun _ db => (.error "Upload failed: boom", db)⟩ : TaskRun Unit)
        (newEtlTaskRec "instagram_stories") ⟨[]⟩).2.2
      = .error "Upload failed: boom" :=
  ⟨rfl, rfl, rfl⟩

/-- C8 (amended): the three per-stage counters are persisted only by the
single success-path update — a completed task records extracted,
transformed and uploaded counts together; a task failing at any stage
keeps its previous (default zero) counters, and only its status moves to
failed. -/
theorem counts_persist_only_on_success {ρ : Type} (run : TaskRun ρ)
    (rec0 : EtlTaskRec) (db : DbState) :
    (∀ e, (processTask run rec0 db).2.2 = .error e →
      (processTask run rec0 db).1 = { rec0 with status := "failed" }) ∧
    (∀ n, (processTask run rec0 db).2.2 = .ok n →
      ∃ raw tb, wrapErr "Extraction failed: " run.extractF = .ok raw ∧
        wrapErr "Transform failed: " (run.transformF raw) = .ok tb ∧
        run.uploadF tb db = (.ok n, (processTask run rec0 db).2.1) ∧
        (processTask run rec0 db).1 =
          { rec0 with
              status := "completed"
              extractedCount := batchCount raw
              transformedCount := batchCount tb
              uploadedCount := n }) := by
  unfold processTask
  cases wrapErr "Extraction failed: " run.extractF with
  | error e0 =>
    refine ⟨?_, ?_⟩
    · intro e he
      rfl
    · intro n hn
      simp at hn
  | ok raw0 =>
    dsimp only
    cases htr : wrapErr "Transform failed: " (run.transformF raw0) with
    | error e1 =>
      refine ⟨?_, ?_⟩
      · intro e he
        rfl
      · intro n hn
        simp at hn
    | ok tb0 =>
      dsimp only
      rcases hu : run.uploadF tb0 db with ⟨res, db2⟩
      cases res with
      | error e2 =>
        refine ⟨?_, ?_⟩
        · intro e he
          rfl
        · intro n hn
          simp at hn
      | ok n0 =>
        refine ⟨?_, ?_⟩
        · intro e he
          simp at he
        · intro n hn
          simp only [Except.ok.injEq] at hn
          subst hn
          exact ⟨raw0, tb0, rfl, htr, hu, rfl⟩

/-- C8 (witness): the amended theorem at a concrete upload-failing run
and at a concrete fully-successful run. -/
theorem counts_persist_only_on_success_witness :
    (processTask
        (⟨.ok [[()]], fun _ => .ok [[fixtureRowA]],
          fun _ db => (.error "Upload failed: boom", db)⟩ : TaskRun Unit)
        (newEtlTaskRec "t") ⟨[]⟩).1
      = { newEtlTaskRec "t" with status := "failed" } ∧
    (∃ raw tb, wrapErr "Extraction failed: " fixtureRunOk.extractF = .ok raw ∧
      wrapErr "Transform failed: " (fixtureRunOk.transformF raw) = .ok tb ∧
      fixtureRunOk.uploadF tb ⟨[]⟩ =
        (.ok 1, (processTask fixtureRunOk (newEtlTaskRec "good") ⟨[]⟩).2.1) ∧
      (processTask fixtureRunOk (newEtlTaskRec "good") ⟨[]⟩).1 =
        { newEtlTaskRec "good" with
            status := "completed"
            extractedCount := batchCount raw
            transformedCount := batchCount tb
            uploadedCount := 1 }) :=
  ⟨(counts_persist_only_on_success _ (newEtlTaskRec "t") ⟨[]⟩).1
      "Upload failed: boom" rfl,
   (counts_persist_only_on_success fixtureRunOk (newEtlTaskRec "good")
      ⟨[]⟩).2 1 rfl⟩

/-- A string append with a non-empty left part is non-empty. -/
lemma ne_empty_append (a b : String) (ha : a ≠ "") : a ++ b ≠ "" := by
  intro h
  apply ha
  have hd := congrArg String.data h
  rw [String.data_append] at hd
  have h2 := List.append_eq_nil.1 hd
  cases a
  simp_all

/-- Send previews always start with "Sent ". -/
lemma sendPreview_ne_empty (p : Json) (prov : String) :
    getSendMessagePreview p prov ≠ "" := by
  unfold getSendMessagePreview
  exact ne_empty_append _ _ (ne_empty_append _ _ (ne_empty_append _ _
    (ne_empty_append _ _ (by decide))))

/-- Receive previews always start with "Received ". -/
lemma receivePreview_ne_empty (p : Json) (prov : String) :
    getReceiveMessagePreview p prov ≠ "" := by
  unfold getReceiveMessagePreview
  exact ne_empty_append _ _ (ne_empty_append _ _ (ne_empty_append _ _
    (ne_empty_append _ _ (by decide))))

/-- Create previews always start with "Posted ". -/
lemma createPreview_ne_empty (p : Json) (prov : String) :
    getCreateObjectPreview p prov ≠ "" := by
  unfold getCreateObjectPreview
  exact ne_empty_append _ _ (ne_empty_append _ _ (by decide))

/-- A non-null binding survives the null-filtering clean, with its value
cleaned. -/
lemma mem_cleanFields {kvs : List (String × Json)} {k : String} {v : Json}
    (h : (k, v) ∈ kvs) (hv : v.isNull = false) :
    (k, sortedClean v) ∈ cleanFields kvs := by
  induction kvs with
  | nil => cases h
  | cons hd tl ih =>
    obtain ⟨k2, v2⟩ := hd
    rcases List.mem_cons.1 h with heq | hmem
    · rw [Prod.mk.injEq] at heq
      obtain ⟨h1, h2⟩ := heq
      subst h1; subst h2
      simp [cleanFields, hv]
    · simp only [cleanFields]
      split
      · exact ih hmem
      · exact List.mem_cons_of_mem _ (ih hmem)

/-- A non-null binding of an object literal appears in its cleaned,
key-sorted dictionary. -/
lemma sortedClean_obj_tag (kvs : List (String × Json)) (k : String) (v : Json)
    (h : (k, v) ∈ kvs) (hv : v.isNull = false) :
    ∃ fields, sortedClean (.obj kvs) = .obj fields ∧
      (k, sortedClean v) ∈ fields := by
  refine ⟨sortKey (cleanFields kvs), rfl, ?_⟩
  unfold sortKey
  rw [List.mem_insertionSort]
  exact mem_cleanFields h hv



/-- Destructure membership in the ChatGPT transform output down to the
record that produced the row. -/
lemma mem_chatgptTransform {task : TaskMetadata} {nowMs : Int}
    {batches : List (List RawChatRecord)} {row : ThreadRow}
    (h : row ∈ (chatgptTransform task nowMs batches).flatten) :
    ∃ record, chatgptRowOf task nowMs record = some row := by
  rw [List.mem_flatten] at h
  obtain ⟨l, hl, hrow⟩ := h
  unfold chatgptTransform at hl
  rw [List.mem_filterMap] at hl
  obtain ⟨batch, hb, hopt⟩ := hl
  dsimp only at hopt
  split at hopt
  · exact absurd hopt (by simp)
  · rw [Option.some.injEq] at hopt
    rw [← hopt] at hrow
    rw [List.mem_filterMap] at hrow
    obtain ⟨record, hrec, hsome⟩ := hrow
    exact ⟨record, hsome⟩

/-- Destructure membership in the Instagram transform output down to the
record that produced the row. -/
lemma mem_instagramTransform {task : TaskMetadata}
    {batches : List (List RawMediaRecord)} {row : ThreadRow}
    (h : row ∈ (instagramTransform task batches).flatten) :
    ∃ record, instagramRowOf task record = some row := by
  rw [List.mem_flatten] at h
  obtain ⟨l, hl, hrow⟩ := h
  unfold instagramTransform at hl
  rw [List.mem_filterMap] at hl
  obtain ⟨batch, hb, hopt⟩ := hl
  dsimp only at hopt
  split at hopt
  · exact absurd hopt (by simp)
  · rw [Option.some.injEq] at hopt
    rw [← hopt] at hrow
    rw [List.mem_filterMap] at hrow
    obtain ⟨record, hrec, hsome⟩ := hrow
    exact ⟨record, hsome⟩

/-- C7: every ThreadRow produced by either Transform strategy has a
non-empty preview, a unique key whose prefix is the task's interaction
type followed by ":", and a payload dictionary carrying its fibre kind
tag (SendMessage/ReceiveMessage for ChatGPT rows — whose tasks the
registry always creates with interaction type chatgpt_conversations —
and Create for Instagram media rows). -/
theorem normalized_record_invariants :
    (∀ (task : TaskMetadata) (nowMs : Int)
      (batches : List (List RawChatRecord)) (row : ThreadRow),
      row ∈ (chatgptTransform task nowMs batches).flatten →
      task.interactionType = "chatgpt_conversations" →
      row.preview ≠ "" ∧
      (∃ t, row.uniqueKey = task.interactionType ++ ":" ++ t) ∧
      (hasKindTag row.payload "SendMessage" ∨
        hasKindTag row.payload "ReceiveMessage")) ∧
    (∀ (task : TaskMetadata) (batches : List (List RawMediaRecord))
      (row : ThreadRow),
      row ∈ (instagramTransform task batches).flatten →
      row.preview ≠ "" ∧
      (∃ t, row.uniqueKey = task.interactionType ++ ":" ++ t) ∧
      hasKindTag row.payload "Create") := by
  constructor
  · intro task nowMs batches row hmem hit
    obtain ⟨record, hrec⟩ := mem_chatgptTransform hmem
    unfold chatgptRowOf at hrec
    cases hp : chatgptBuildPayload record with
    | none => rw [hp] at hrec; exact absurd hrec (by simp)
    | some payload =>
      rw [hp] at hrec
      dsimp only at hrec
      rw [Option.some.injEq] at hrec
      subst hrec
      refine ⟨?_, ⟨uniqueKeySuffix (toDict payload), by rw [hit]; rfl⟩, ?_⟩
      · show (if payload.get "fibre_kind" = some (.str "SendMessage") then
            getSendMessagePreview payload "ChatGPT"
          else getReceiveMessagePreview payload "ChatGPT") ≠ ""
        split
        · exact sendPreview_ne_empty _ _
        · exact receivePreview_ne_empty _ _
      · unfold chatgptBuildPayload at hp
        by_cases hu : record.role = "user"
        · rw [if_pos hu, Option.some.injEq] at hp
          left
          show hasKindTag (toDict payload) "SendMessage"
          rw [← hp]
          unfold toDict makeSendMessage
          exact sortedClean_obj_tag _ "fibre_kind" (.str "SendMessage")
            (List.mem_append_left _ (by simp)) rfl
        · by_cases ha : record.role = "assistant"
          · rw [if_neg hu, if_pos ha, Option.some.injEq] at hp
            right
            show hasKindTag (toDict payload) "ReceiveMessage"
            rw [← hp]
            unfold toDict makeReceiveMessage
            exact sortedClean_obj_tag _ "fibre_kind" (.str "ReceiveMessage")
              (List.mem_append_left _ (by simp)) rfl
          · rw [if_neg hu, if_neg ha] at hp
            exact absurd hp (by simp)
  · intro task batches row hmem
    obtain ⟨record, hrec⟩ := mem_instagramTransform hmem
    unfold instagramRowOf at hrec
    cases hp : instagramBuildPayload record with
    | none => rw [hp] at hrec; exact absurd hrec (by simp)
    | some payload =>
      rw [hp] at hrec
      dsimp only at hrec
      rw [Option.some.injEq] at hrec
      subst hrec
      refine ⟨?_, ⟨uniqueKeySuffix (toDict payload), rfl⟩, ?_⟩
      · exact createPreview_ne_empty _ _
      · unfold instagramBuildPayload at hp
        rw [Option.some.injEq] at hp
        show hasKindTag (toDict payload) "Create"
        rw [← hp]
        unfold toDict makeCreateObject
        exact sortedClean_obj_tag _ "fibre_kind" (.str "Create")
          (List.mem_append_left _ (by simp)) rfl

-- Batteries marks the Rat arithmetic irreducible; the concrete witness
-- evaluations below need it unfolded.
set_option allowUnsafeReducibility true

attribute [local semireducible] Rat.mul



/-- C7 (witness): the invariants theorem applied to the row produced
from one concrete user message and one concrete media item. -/
theorem normalized_record_invariants_witness :
    (cgRowW ∈ (chatgptTransform cgTask 0 [[cgRecU]]).flatten ∧
      (cgRowW.preview ≠ "" ∧
        (∃ t, cgRowW.uniqueKey = cgTask.interactionType ++ ":" ++ t) ∧
        (hasKindTag cgRowW.payload "SendMessage" ∨
          hasKindTag cgRowW.payload "ReceiveMessage"))) ∧
    (igRowW ∈ (instagramTransform igTask [[igRec]]).flatten ∧
      (igRowW.preview ≠ "" ∧
        (∃ t, igRowW.uniqueKey = igTask.interactionType ++ ":" ++ t) ∧
        hasKindTag igRowW.payload "Create")) :=
  ⟨⟨by decide,
    normalized_record_invariants.1 cgTask 0 [[cgRecU]] cgRowW (by decide) rfl⟩,
   ⟨by decide,
    normalized_record_invariants.2 igTask [[igRec]] igRowW (by decide)⟩⟩

/-- C10 (witness): a two-filename task over a storage that differs from
a second storage everywhere except at the first filename. -/
theorem extraction_reads_only_first_witness :
    chatgptExtract ⟨"a", "t", "chatgpt", "chatgpt_conversations",
        ["k1", "k2"], none⟩ (fun k => if k = "k1" then some (.arr []) else none)
      = chatgptExtract ⟨"a", "t", "chatgpt", "chatgpt_conversations",
        ["k1"], none⟩ (fun k => if k = "k1" then some (.arr []) else some .null) ∧
    instagramStoriesExtract ⟨"a", "t", "chatgpt", "chatgpt_conversations",
        ["k1", "k2"], none⟩ (fun k => if k = "k1" then some (.arr []) else none)
      = instagramStoriesExtract ⟨"a", "t", "chatgpt", "chatgpt_conversations",
        ["k1"], none⟩ (fun k => if k = "k1" then some (.arr []) else some .null) ∧
    instagramReelsExtract ⟨"a", "t", "chatgpt", "chatgpt_conversations",
        ["k1", "k2"], none⟩ (fun k => if k = "k1" then some (.arr []) else none)
      = instagramReelsExtract ⟨"a", "t", "chatgpt", "chatgpt_conversations",
        ["k1"], none⟩ (fun k => if k = "k1" then some (.arr []) else some .null) :=
  extraction_reads_only_first _ _ _ "k1" ["k2"] rfl rfl

end ContextUse
